import Mathlib

/-!
Verification of the Claudian memory subsystem.

This file gives a shallow embedding of the memory engine found in
`src/cortex/src/memory/` (manager.ts, core.ts, backup.ts, db.ts,
embedding-service.ts) and proves or refutes the frozen claims about it.

Modelling conventions:
* JavaScript numbers are modelled as `ℚ` (the code only produces finite
  doubles on the inputs considered); `Math.sqrt` is modelled over `ℝ`.
* ISO timestamp strings are modelled by their epoch-millisecond value (`ℤ`):
  the code only ever compares them through `new Date(_).getTime()`.
* SQLite tables are modelled as in-memory lists; SQL `ORDER BY`/`LIMIT`
  become sorting/truncation of those lists.
* The two searches of `queryKnowledge` hit the database; the pipeline is
  therefore parameterised by the row sets those SQL queries return
  (`ftsRows` with their raw bm25 score, `semRows` with their cosine
  similarity to the query), and everything after that point is translated
  directly from the TypeScript.
-/

/-! ## JavaScript helpers -/

/-- Truncation toward zero, as JavaScript `ToIntegerOrInfinity` performs on
finite numbers (used by `Array.prototype.slice`). -/
def jsTrunc (q : ℚ) : ℤ :=
  if 0 ≤ q then ⌊q⌋ else -⌊-q⌋

/-- `l.slice(0, q)` for a JavaScript array: the end index is truncated toward
zero and a negative end counts from the end of the array. -/
def jsSlice0 {α : Type} (l : List α) (q : ℚ) : List α :=
  if jsTrunc q < 0 then l.take (l.length - (-jsTrunc q).toNat)
  else l.take (jsTrunc q).toNat

/-- ASCII whitespace, the fragment of the JavaScript `\s` class that the
queries and contents considered here can contain. -/
def isWsC (c : Char) : Bool :=
  c = ' ' || c = '\t' || c = '\n' || c = '\r'

/-- ASCII decimal digit (JavaScript `\d`). -/
def isDigitC (c : Char) : Bool :=
  '0' ≤ c && c ≤ '9'

/-- ASCII letter; with the `/i` flag the regex classes `[A-Z]`/`[a-z]` both
match exactly these characters. -/
def isLetterC (c : Char) : Bool :=
  ('a' ≤ c && c ≤ 'z') || ('A' ≤ c && c ≤ 'Z')

/-- JavaScript word character (`\w`, the class that defines `\b`). -/
def isWordC (c : Char) : Bool :=
  isLetterC c || isDigitC c || c = '_'

/-- Worker for `jsSplitWS`: splits a character list on maximal whitespace
runs, producing the boundary empty strings JavaScript `split(/\s+/)`
produces for leading/trailing whitespace.  The extra `fuel` argument makes
the recursion structural (so that the definition evaluates inside the
kernel); every step strictly shortens the character list, so any fuel of at
least `length + 1` yields the full split. -/
def jsSplitChars : ℕ → List Char → List Char → List (List Char)
  | 0, _, acc => [acc.reverse]
  | _ + 1, [], acc => [acc.reverse]
  | fuel + 1, c :: rest, acc =>
    if isWsC c then
      acc.reverse :: jsSplitChars fuel (rest.dropWhile isWsC) []
    else
      jsSplitChars fuel rest (c :: acc)

/-- JavaScript `s.split(/\s+/)`.  Note that a string beginning (ending) with
whitespace yields a leading (trailing) empty-string element. -/
def jsSplitWS (s : String) : List String :=
  (jsSplitChars (s.data.length + 1) s.data []).map List.asString

/-- JavaScript `toLowerCase()` on the ASCII strings considered here,
defined characterwise so that it evaluates inside the kernel. -/
def jsToLower (s : String) : String :=
  (s.data.map Char.toLower).asString

/-- Stable insertion of `x` into a list sorted by `le`: `x` goes after every
element that may precede it (ties included), as JavaScript's stable
`Array.prototype.sort` keeps equal elements in input order. -/
def stableInsert {α : Type} (le : α → α → Bool) (x : α) : List α → List α
  | [] => [x]
  | y :: ys => if le y x then y :: stableInsert le x ys else x :: y :: ys

/-- Stable sort by the boolean relation `le` ("may precede").  For the total
comparators used by this code it computes exactly what the (stable)
JavaScript `Array.prototype.sort` computes. -/
def stableSort {α : Type} (le : α → α → Bool) (l : List α) : List α :=
  l.foldl (fun sorted x => stableInsert le x sorted) []

/-- `Set.add` on a JavaScript `Set` of strings modelled as its
insertion-ordered, duplicate-free element list. -/
def jsSetAdd (s : List String) (x : String) : List String :=
  if s.contains x then s else s ++ [x]

/-- The JavaScript `new Set(list)`: insertion-ordered deduplication. -/
def jsSetOfList (l : List String) : List String :=
  l.foldl jsSetAdd []

/-- The number of whitespace-separated tokens of a string in the ordinary
sense: maximal non-empty runs of non-whitespace characters.  This is what the
claims mean by "whitespace-separated tokens"; it differs from
`(jsSplitWS s).length` exactly on strings with leading/trailing whitespace. -/
def tokenCountWS (s : String) : ℕ :=
  ((jsSplitWS s).filter (fun t => t ≠ "")).length

/-! ## Data model (schema.ts) -/

/-- `MemoryCategory` from memory-store.ts (the schema module). -/
inductive MemoryCategory : Type
  | preference
  | fact
  | project
  | instruction
  | personal
  | technical
  | identity
deriving DecidableEq, Repr

/-- `MemorySource` from the schema module. -/
inductive MemorySource : Type
  | explicit
  | extracted
  | reflection
deriving DecidableEq, Repr

/-- Match type of a search result (`'keyword' | 'semantic'`). -/
inductive MatchType : Type
  | keyword
  | semantic
deriving DecidableEq, Repr

/-- `KnowledgeSnippet` (schema module / `rowToSnippet`).  Timestamps are
epoch milliseconds. -/
structure KnowledgeSnippet : Type where
  id : ℤ
  content : String
  category : MemoryCategory
  importance : ℚ
  source : MemorySource
  tags : List String
  sessionId : Option String
  accessCount : ℕ
  createdAt : ℤ
  updatedAt : ℤ
deriving DecidableEq, Repr

/-- `KnowledgeSearchResult`. -/
structure KnowledgeSearchResult : Type where
  snippet : KnowledgeSnippet
  score : ℚ
  matchType : MatchType
deriving DecidableEq, Repr

/-- `CoreFact` (schema module). -/
structure CoreFact : Type where
  id : ℤ
  content : String
  category : MemoryCategory
  importance : ℚ
  createdAt : ℤ
  updatedAt : ℤ
  active : Bool
deriving DecidableEq, Repr

/-- Result of `MemoryManager.analyzeQuery`. -/
structure QueryAnalysis : Type where
  isSpecific : Bool
  isFactual : Bool
  isPreference : Bool
  complexity : ℚ
  minSemanticScore : ℚ
deriving DecidableEq, Repr

/-- `QueryMemoryInput`: the category filter is applied inside the SQL
queries and therefore lives in the row-set parameters of the pipeline. -/
structure QueryMemoryInput : Type where
  query : String
  category : Option MemoryCategory
  limit : Option ℚ
deriving DecidableEq, Repr

/-! ## Query analysis (manager.ts, analyzeQuery and friends) -/

/-- Length of the maximal ASCII-letter run starting at index `i`. -/
def letterRunLen (s : List Char) (i : ℕ) : ℕ :=
  ((s.drop i).takeWhile isLetterC).length

/-- `\b` holds just before index `i`: start of string or a non-word
character at `i - 1`. -/
def boundaryBefore (s : List Char) (i : ℕ) : Bool :=
  i = 0 || !isWordC (s.getD (i - 1) ' ')

/-- `\b` holds just before index `i` seen from the left side of the match
end: end of string or a non-word character at `i`. -/
def boundaryAt (s : List Char) (i : ℕ) : Bool :=
  s.length ≤ i || !isWordC (s.getD i ' ')

/-- The `\b\d{4}\b` alternative of the `specificPatterns` regex. -/
def hasFourDigitWord (s : List Char) : Bool :=
  (List.range s.length).any fun i =>
    decide (i + 4 ≤ s.length) &&
    ((List.range 4).all fun j => isDigitC (s.getD (i + j) ' ')) &&
    boundaryBefore s i && boundaryAt s (i + 4)

/-- The `\b[A-Z][a-z]+\s[A-Z][a-z]+\b` alternative under the `/i` flag: two
letter runs of length at least 2 separated by exactly one whitespace
character, with word boundaries on both sides. -/
def hasCapsPair (s : List Char) : Bool :=
  (List.range s.length).any fun i =>
    boundaryBefore s i &&
    decide (2 ≤ letterRunLen s i) &&
    isWsC (s.getD (i + letterRunLen s i) 'x') &&
    decide (2 ≤ letterRunLen s (i + letterRunLen s i + 1)) &&
    boundaryAt s (i + letterRunLen s i + 1 + letterRunLen s (i + letterRunLen s i + 1))

/-- Case-insensitive substring test for the literal alternatives
`api|config|system|setting`. -/
def hasDomainKeyword (q : String) : Bool :=
  ["api", "config", "system", "setting"].any fun pat =>
    decide (List.IsInfix pat.data (jsToLower q).data)

/-- `specificPatterns.test(query)` for the regex
`/\b\d{4}\b|\b[A-Z][a-z]+\s[A-Z][a-z]+\b|api|config|system|setting/i`. -/
def specificPatternsTest (q : String) : Bool :=
  hasFourDigitWord q.data || hasCapsPair q.data || hasDomainKeyword q

/-- Interrogative keywords of `analyzeQuery`. -/
def factualKeywords : List String :=
  ["what", "when", "where", "how", "which", "who"]

/-- Preference keywords of `analyzeQuery`. -/
def preferenceKeywords : List String :=
  ["prefer", "like", "want", "need", "favorite", "setting"]

/-- `MemoryManager.analyzeQuery`. -/
def analyzeQuery (query : String) : QueryAnalysis :=
  let words := jsSplitWS (jsToLower query)
  let length := words.length
  let isSpecific := specificPatternsTest query || words.any fun w => 8 < w.length
  let isFactual := factualKeywords.any fun kw => words.contains kw
  let isPreference := preferenceKeywords.any fun kw => words.contains kw
  let complexity := min ((length : ℚ) / 10) 1
  let minSemanticScore : ℚ :=
    if length < 3 then 7/10
    else if isPreference then 6/10
    else if isSpecific then 5/10
    else 4/10
  ⟨isSpecific, isFactual, isPreference, complexity, minSemanticScore⟩

/-- The `requestedLimit || 10` default (`0` is falsy in JavaScript). -/
def qkBaseLimit (requestedLimit : Option ℚ) : ℚ :=
  match requestedLimit with
  | none => 10
  | some l => if l = 0 then 10 else l

/-- `MemoryManager.calculateOptimalLimit`. -/
def calculateOptimalLimit (analysis : QueryAnalysis) (requestedLimit : Option ℚ) : ℚ :=
  let baseLimit := qkBaseLimit requestedLimit
  if analysis.isSpecific && decide (analysis.complexity < 3/10) then
    max 3 ((⌊baseLimit * (1/2)⌋ : ℤ) : ℚ)
  else if decide (7/10 < analysis.complexity) then
    min (baseLimit * (12/10)) 12
  else baseLimit

/-- `MemoryManager.calculateSemanticThreshold`. -/
def calculateSemanticThreshold (query : String) (totalResults : ℕ) : ℚ :=
  if 20 < totalResults then 6/10
  else if 10 < totalResults then 5/10
  else if (jsSplitWS query).length ≤ 2 then 45/100
  else 4/10

/-! ## Search stages of `queryKnowledge` (manager.ts) -/

/-- The mapping `searchFTS` applies to the rows its SQL query returns:
`score := Math.abs(bm25)` (bm25 is negative) and match type `keyword`.
The row set itself (`ftsRows`, already `LIMIT`ed and category-filtered by
the SQL) is a parameter of the pipeline. -/
def searchFTSModel (ftsRows : List (KnowledgeSnippet × ℚ)) : List KnowledgeSearchResult :=
  ftsRows.map fun p => ⟨p.1, |p.2|, MatchType.keyword⟩

/-- `MemoryManager.searchSemantic`, parameterised by the embedded rows
together with their cosine similarity to the query embedding (`semRows`).
Keeps rows whose similarity strictly exceeds the corpus-size-adaptive
threshold, sorts by similarity descending, truncates to `limit`. -/
def searchSemanticModel (query : String) (semRows : List (KnowledgeSnippet × ℚ))
    (limit : ℚ) : List KnowledgeSearchResult :=
  let threshold := calculateSemanticThreshold query semRows.length
  let scored := semRows.filter fun p => decide (threshold < p.2)
  let sorted := stableSort (fun a b => decide (b.2 ≤ a.2)) scored
  (jsSlice0 sorted limit).map fun p => ⟨p.1, p.2, MatchType.semantic⟩

/-! ## Deduplication (manager.ts, smartDeduplication) -/

/-- `MemoryManager.calculateWordOverlap` on two JavaScript `Set`s of words
(each modelled as its duplicate-free element list): zero if either is empty,
otherwise `|intersection| / |union|`. -/
def calculateWordOverlap (set1 set2 : List String) : ℚ :=
  if set1.length = 0 ∨ set2.length = 0 then 0
  else ((set1.filter fun w => set2.contains w).length : ℚ) /
    ((jsSetOfList (set1 ++ set2)).length : ℚ)

/-- The candidate-side word set of `smartDeduplication`: the words of the
lowercased content that are strictly longer than 3 characters. -/
def longWordSet (content : String) : List String :=
  jsSetOfList ((jsSplitWS (jsToLower content)).filter fun w => 3 < w.length)

/-- The accepted-side word set the code actually compares against:
`new Set(seenContent.split(/\s+/))` — all words of the stored (already
lowercased) content, with no length filter. -/
def allWordSet (content : String) : List String :=
  jsSetOfList (jsSplitWS content)

/-- Loop body of `smartDeduplication`: walk the score-sorted candidates,
discarding a candidate whose word overlap with some previously accepted
content exceeds 0.7. -/
def dedupGo : List KnowledgeSearchResult → List KnowledgeSearchResult → List String →
    List KnowledgeSearchResult
  | [], unique, _ => unique
  | r :: rest, unique, seen =>
    let content := jsToLower r.snippet.content
    let contentWords := jsSetOfList ((jsSplitWS content).filter fun w => 3 < w.length)
    let isDuplicate := seen.any fun s =>
      decide (7/10 < calculateWordOverlap contentWords (jsSetOfList (jsSplitWS s)))
    if isDuplicate then dedupGo rest unique seen
    else dedupGo rest (unique ++ [r]) (jsSetAdd seen content)

/-- `MemoryManager.smartDeduplication`. -/
def smartDeduplication (results : List KnowledgeSearchResult) : List KnowledgeSearchResult :=
  if results.length ≤ 3 then results
  else dedupGo (stableSort (fun a b => decide (b.score ≤ a.score)) results) [] []

/-! ## Relevance re-scoring and adaptive limiting (manager.ts) -/

/-- `MemoryManager.calculateRelevanceScore`: raw score plus recency,
access-count, importance and category-match boosts.  `now` is
`Date.now()` in epoch milliseconds. -/
def calculateRelevanceScore (now : ℤ) (result : KnowledgeSearchResult)
    (analysis : QueryAnalysis) : ℚ :=
  let daysSinceUpdate : ℚ := ((now - result.snippet.updatedAt : ℤ) : ℚ) / 86400000
  let recencyBoost : ℚ := max 0 (1 - daysSinceUpdate / 30)
  result.score
    + recencyBoost * (1/10)
    + min ((result.snippet.accessCount : ℚ) * (2/100)) (2/10)
    + result.snippet.importance * (15/100)
    + (if analysis.isPreference ∧ result.snippet.category = MemoryCategory.preference
        then 3/10 else 0)
    + (if analysis.isFactual ∧ (result.snippet.category = MemoryCategory.fact ∨
          result.snippet.category = MemoryCategory.technical)
        then 2/10 else 0)

/-- Mean of a list of scores (`reduce(+) / length`; the empty case never
arises on the code path that uses it). -/
def avgOf (scores : List ℚ) : ℚ :=
  scores.sum / (scores.length : ℚ)

/-- Population variance of a list of scores; the code keeps
`sqrt` of this as `scoreStdDev`. -/
def varOf (scores : List ℚ) : ℚ :=
  ((scores.map fun s => (s - avgOf scores) ^ 2).sum) / (scores.length : ℚ)

/-- Decidable encoding of the filter `score >= avgScore + scoreStdDev * 0.5`:
for a nonnegative variance `v` this holds iff `avg ≤ s` and
`v ≤ 4 * (s - avg)²` (proved below as `scoreAtOrAbove_iff`). -/
def scoreAtOrAbove (s avg v : ℚ) : Bool :=
  decide (avg ≤ s ∧ v ≤ 4 * (s - avg) ^ 2)

/-- The raw scores `applyAdaptiveLimiting` draws its distribution from:
`results.map(r => r.score)` — the search scores, not the composite
relevance scores. -/
def rawScores (results : List KnowledgeSearchResult) : List ℚ :=
  results.map KnowledgeSearchResult.score

/-- The `highQualityResults` filter of `applyAdaptiveLimiting`. -/
def rawHighQuality (results : List KnowledgeSearchResult) : List KnowledgeSearchResult :=
  results.filter fun r =>
    scoreAtOrAbove r.score (avgOf (rawScores results)) (varOf (rawScores results))

/-- `MemoryManager.applyAdaptiveLimiting`.  The `analysis` argument is
declared but unused, exactly as in the source. -/
def applyAdaptiveLimiting (results : List KnowledgeSearchResult) (targetLimit : ℚ)
    (analysis : QueryAnalysis) : List KnowledgeSearchResult :=
  if (results.length : ℚ) ≤ targetLimit then results
  else if (((rawHighQuality results).length : ℚ)) ≤ targetLimit * (3/2) then
    rawHighQuality results
  else jsSlice0 results targetLimit

/-! ## The `queryKnowledge` pipeline (manager.ts, lines 234-287) -/

/-- The dynamic limit of a query. -/
def qkDynamicLimit (input : QueryMemoryInput) : ℚ :=
  calculateOptimalLimit (analyzeQuery input.query) input.limit

/-- Keyword results after the bm25 quality filter
(`|score| ≥ 0.5` for specific queries, `≥ 1.0` otherwise). -/
def qkQualityFts (input : QueryMemoryInput)
    (ftsRows : List (KnowledgeSnippet × ℚ)) : List KnowledgeSearchResult :=
  (searchFTSModel ftsRows).filter fun r =>
    decide ((if (analyzeQuery input.query).isSpecific then (5/10 : ℚ) else 1) ≤ |r.score|)

/-- Keyword results merged with the semantic backfill: semantic search runs
only when embeddings are enabled and the keyword results fall short of the
dynamic limit; merged results must be new ids and clear the query-type
minimum semantic score. -/
def qkMerged (enableEmbeddings : Bool) (input : QueryMemoryInput)
    (ftsRows semRows : List (KnowledgeSnippet × ℚ)) : List KnowledgeSearchResult :=
  let results := qkQualityFts input ftsRows
  if enableEmbeddings && decide ((results.length : ℚ) < qkDynamicLimit input) then
    let semanticResults :=
      searchSemanticModel input.query semRows (qkDynamicLimit input - results.length)
    results ++ semanticResults.filter fun r =>
      !(results.map fun q => q.snippet.id).contains r.snippet.id &&
      decide ((analyzeQuery input.query).minSemanticScore ≤ r.score)
  else results

/-- `MemoryManager.queryKnowledge`, parameterised by the row sets the two
SQL searches return.  Returns the final result list (the access-count side
effect touches only rows of this list and is not needed by the claims). -/
def queryKnowledge (now : ℤ) (enableEmbeddings : Bool)
    (ftsRows semRows : List (KnowledgeSnippet × ℚ))
    (input : QueryMemoryInput) : List KnowledgeSearchResult :=
  let analysis := analyzeQuery input.query
  let deduped := smartDeduplication (qkMerged enableEmbeddings input ftsRows semRows)
  let sorted := stableSort (fun a b =>
    decide (calculateRelevanceScore now b analysis ≤ calculateRelevanceScore now a analysis)) deduped
  applyAdaptiveLimiting sorted (qkDynamicLimit input) analysis

/-! ## Spec-side variants for the deduplication and limiting claims -/

/-- Deduplication loop as the claim words it: the overlap is computed
between the candidate's words longer than 3 characters and each previously
accepted result's word set *of words longer than 3 characters* (both sides
length-filtered). -/
def dedupClaimGo : List KnowledgeSearchResult → List KnowledgeSearchResult →
    List (List String) → List KnowledgeSearchResult
  | [], unique, _ => unique
  | r :: rest, unique, seenSets =>
    let contentWords := longWordSet r.snippet.content
    if seenSets.any fun ws => decide (7/10 < calculateWordOverlap contentWords ws) then
      dedupClaimGo rest unique seenSets
    else
      dedupClaimGo rest (unique ++ [r]) (seenSets ++ [longWordSet r.snippet.content])

/-- `smartDeduplication` as claim C3 states it (length filter on both sides
of the overlap). -/
def smartDeduplicationClaimC3 (results : List KnowledgeSearchResult) :
    List KnowledgeSearchResult :=
  if results.length ≤ 3 then results
  else dedupClaimGo (stableSort (fun a b => decide (b.score ≤ a.score)) results) [] []

/-- Deduplication loop as amended: it carries the accepted results' word
sets directly — the candidate side filtered to words longer than 3
characters, the accepted side the full (unfiltered) word set of the
lowercased content. -/
def dedupSpecGo : List KnowledgeSearchResult → List KnowledgeSearchResult →
    List (List String) → List KnowledgeSearchResult
  | [], unique, _ => unique
  | r :: rest, unique, seenSets =>
    let contentWords := longWordSet r.snippet.content
    if seenSets.any fun ws => decide (7/10 < calculateWordOverlap contentWords ws) then
      dedupSpecGo rest unique seenSets
    else
      dedupSpecGo rest (unique ++ [r]) (seenSets ++ [allWordSet (jsToLower r.snippet.content)])

/-- `smartDeduplication` as the amended claim C3 describes it. -/
def smartDeduplicationSpec (results : List KnowledgeSearchResult) :
    List KnowledgeSearchResult :=
  if results.length ≤ 3 then results
  else dedupSpecGo (stableSort (fun a b => decide (b.score ≤ a.score)) results) [] []

/-- The final limiting step as claim C2 states it: the score distribution
and the quality filter are taken over the *composite* relevance scores
(step 6 re-scoring) instead of the raw search scores. -/
def applyAdaptiveLimitingClaimC2 (now : ℤ) (results : List KnowledgeSearchResult)
    (targetLimit : ℚ) (analysis : QueryAnalysis) : List KnowledgeSearchResult :=
  if (results.length : ℚ) ≤ targetLimit then results
  else
    let scores := results.map fun r => calculateRelevanceScore now r analysis
    let kept := results.filter fun r =>
      scoreAtOrAbove (calculateRelevanceScore now r analysis) (avgOf scores) (varOf scores)
    if ((kept.length : ℚ)) ≤ targetLimit * (3/2) then kept
    else jsSlice0 results targetLimit

/-! ## Core context (core.ts) -/

/-- SQL `ORDER BY importance DESC, created_at ASC` as a boolean
"may precede" relation. -/
def coreFactLe (a b : CoreFact) : Bool :=
  decide (b.importance < a.importance) ||
    (decide (a.importance = b.importance) && decide (a.createdAt ≤ b.createdAt))

/-- `CoreContext.getActiveFacts`: the active rows of the `core_facts` table,
ordered by importance descending then creation ascending. -/
def getActiveFacts (facts : List CoreFact) : List CoreFact :=
  stableSort coreFactLe (facts.filter fun f => f.active)

/-- The fixed category priority order of `buildPromptSection`. -/
def categoryOrder : List MemoryCategory :=
  [MemoryCategory.identity, MemoryCategory.instruction, MemoryCategory.preference,
   MemoryCategory.project, MemoryCategory.personal, MemoryCategory.fact,
   MemoryCategory.technical]

/-- `CoreContext.formatCategory`. -/
def formatCategory (category : MemoryCategory) : String :=
  match category with
  | MemoryCategory.identity => "Agent Identity"
  | MemoryCategory.instruction => "Instructions"
  | MemoryCategory.preference => "User Preferences"
  | MemoryCategory.project => "Project Context"
  | MemoryCategory.personal => "Personal Information"
  | MemoryCategory.fact => "Known Facts"
  | MemoryCategory.technical => "Technical Details"

/-- The grouping stage of `buildPromptSection`: for each category in
priority order, the active facts of that category (the `Map` built by the
code preserves the encounter order inside each group, which is exactly a
filter of the ordered active facts); empty groups are skipped. -/
def promptGroups (facts : List CoreFact) : List (MemoryCategory × List CoreFact) :=
  categoryOrder.filterMap fun c =>
    if ((getActiveFacts facts).filter fun f => f.category = c) = [] then none
    else some (c, (getActiveFacts facts).filter fun f => f.category = c)

/-- One rendered `### ...` subsection. -/
def renderGroup (g : MemoryCategory × List CoreFact) : String :=
  "### " ++ formatCategory g.1 ++ "\n" ++
    String.intercalate "\n" (g.2.map fun f => "- " ++ f.content)

/-- `CoreContext.buildPromptSection`. -/
def buildPromptSection (facts : List CoreFact) : String :=
  if getActiveFacts facts = [] then ""
  else
    "## Core Context\n\nThe following information has been established about the user and environment:\n\n"
      ++ String.intercalate "\n\n" ((promptGroups facts).map renderGroup)

/-! ## Persisted state and the write paths (manager.ts, core.ts) -/

/-- A row of the `knowledge` table. -/
structure KnowledgeRow : Type where
  id : ℤ
  content : String
  category : MemoryCategory
  importance : ℚ
  source : MemorySource
  tags : List String
  sessionId : Option String
  embedding : Option (List ℚ)
  accessCount : ℕ
  createdAt : ℤ
  updatedAt : ℤ
deriving DecidableEq, Repr

/-- An `episodes` row. -/
structure Episode : Type where
  id : ℤ
  sessionId : String
  summary : String
  keyTopics : List String
  keyTakeaways : List String
  messageCount : ℕ
  startedAt : ℤ
  endedAt : ℤ
  createdAt : ℤ
deriving DecidableEq, Repr

/-- The persisted store: the three tiers plus the `knowledge_fts` shadow
index (kept in sync by the schema's `AFTER INSERT` trigger, modelled here as
part of every knowledge insert).  `AUTOINCREMENT` row ids are modelled by
explicit next-id counters. -/
structure MemoryState : Type where
  coreFacts : List CoreFact
  coreNextId : ℤ
  knowledge : List KnowledgeRow
  knowledgeFts : List (ℤ × String)
  knowledgeNextId : ℤ
  episodes : List Episode
  episodeNextId : ℤ
deriving DecidableEq, Repr

/-- `StoreMemoryInput`. -/
structure StoreMemoryInput : Type where
  content : String
  category : MemoryCategory
  importance : Option ℚ
  tags : Option (List String)
  source : Option MemorySource
  isCoreFact : Bool
deriving DecidableEq, Repr

/-- `CoreContext.addFact`: inserts an active row into `core_facts` (default
importance 0.8) and returns the created fact. -/
def addFact (now : ℤ) (content : String) (category : MemoryCategory)
    (st : MemoryState) (importance : ℚ := 8/10) : CoreFact × MemoryState :=
  let fact : CoreFact :=
    ⟨st.coreNextId, content, category, importance, now, now, true⟩
  (fact,
    { st with
        coreFacts := st.coreFacts ++ [fact]
        coreNextId := st.coreNextId + 1 })

/-- `MemoryManager.storeKnowledge`.  `embeddingResult` is the best-effort
embedding produced for the non-core path (`none` when embeddings are
disabled or generation failed).  On `isCoreFact` the content is routed to
`CoreContext.addFact` (default importance 0.9) and returned re-shaped as a
snippet with `accessCount 0`; otherwise a `knowledge` row is inserted (the
FTS trigger mirrors it into the index). -/
def storeKnowledge (now : ℤ) (sessionId : Option String)
    (embeddingResult : Option (List ℚ)) (input : StoreMemoryInput)
    (st : MemoryState) : KnowledgeSnippet × MemoryState :=
  if input.isCoreFact then
    let fs := addFact now input.content input.category st (input.importance.getD (9/10))
    (⟨fs.1.id, fs.1.content, fs.1.category, fs.1.importance,
      input.source.getD MemorySource.explicit, input.tags.getD [], sessionId, 0,
      fs.1.createdAt, fs.1.updatedAt⟩, fs.2)
  else
    let tags := input.tags.getD []
    let source := input.source.getD MemorySource.explicit
    let importance := input.importance.getD (1/2)
    let row : KnowledgeRow :=
      ⟨st.knowledgeNextId, input.content, input.category, importance, source, tags,
        sessionId, embeddingResult, 0, now, now⟩
    (⟨row.id, input.content, input.category, importance, source, tags, sessionId, 0,
        now, now⟩,
      { st with
          knowledge := st.knowledge ++ [row]
          knowledgeFts := st.knowledgeFts ++ [(row.id, row.content)]
          knowledgeNextId := st.knowledgeNextId + 1 })

/-! ## Reflection pipeline (manager.ts, reflectAndSummarize) -/

/-- A conversation turn handed to `reflectAndSummarize`. -/
structure ChatMessage : Type where
  role : String
  content : String
deriving DecidableEq, Repr

/-- One fact extracted by the reflection collaborator. -/
structure ExtractedFact : Type where
  content : String
  category : MemoryCategory
  importance : ℚ
  isCoreFact : Bool
deriving DecidableEq, Repr

/-- `ReflectionResult`. -/
structure ReflectionResult : Type where
  summary : String
  keyTopics : List String
  keyTakeaways : List String
  extractedFacts : List ExtractedFact
deriving DecidableEq, Repr

/-- `MemoryManager.saveEpisode`. -/
def saveEpisode (now sessionStart : ℤ) (sessionId : String)
    (reflection : ReflectionResult) (messageCount : ℕ)
    (st : MemoryState) : MemoryState :=
  { st with
      episodes := st.episodes ++
        [⟨st.episodeNextId, sessionId, reflection.summary, reflection.keyTopics,
          reflection.keyTakeaways, messageCount, sessionStart, now, now⟩]
      episodeNextId := st.episodeNextId + 1 }

/-- Store one extracted fact: core facts go to `core_facts`, the rest
through `storeKnowledge` with `source = reflection`. -/
def applyExtractedFact (now : ℤ) (sessionId : String) (st : MemoryState)
    (fact : ExtractedFact) : MemoryState :=
  if fact.isCoreFact then
    (addFact now fact.content fact.category st fact.importance).2
  else
    (storeKnowledge now (some sessionId) none
      ⟨fact.content, fact.category, some fact.importance, none,
        some MemorySource.reflection, false⟩ st).2

/-- `MemoryManager.reflectAndSummarize`.  The external text-generation call
together with the defensive response parsing is abstracted by `oracle`: the
`ReflectionResult` it yields, or `none` on API failure / parse failure (both
of which make the code return null without writing).  With fewer than 2
turns the function returns null before any of that happens. -/
def reflectAndSummarize (oracle : Option ReflectionResult) (now sessionStart : ℤ)
    (sessionId : String) (messages : List ChatMessage)
    (st : MemoryState) : Option ReflectionResult × MemoryState :=
  if messages.length < 2 then (none, st)
  else
    match oracle with
    | none => (none, st)
    | some result =>
      let st1 := saveEpisode now sessionStart sessionId result messages.length st
      let st2 := result.extractedFacts.foldl (applyExtractedFact now sessionId) st1
      (some result, st2)

/-! ## Backup system (backup.ts) -/

/-- A snapshot together with its sidecar metadata.  The timestamped filename
`claudian_memory_<iso>.db` is modelled by the creation time it encodes. -/
structure BackupMeta : Type where
  filename : ℤ
  timestamp : ℤ
deriving DecidableEq, Repr

/-- The backups directory: the snapshot files (with sidecars) it holds. -/
structure BackupState : Type where
  backups : List BackupMeta
deriving DecidableEq, Repr

/-- `MemoryBackupSystem.listBackups`: all snapshots sorted by timestamp,
newest first. -/
def listBackups (st : BackupState) : List BackupMeta :=
  stableSort (fun a b => decide (b.timestamp ≤ a.timestamp)) st.backups

/-- `BACKUP_RETENTION_DAYS = 7`, in milliseconds (`setDate(getDate() - 7)`
moves the cutoff back seven calendar days). -/
def retentionMs : ℤ := 7 * 86400000

/-- `MemoryBackupSystem.cleanupOldBackups`: walking the newest-first list,
delete every snapshot strictly older than the cutoff or at index
`≥ MAX_BACKUP_FILES = 10`; equivalently, keep the at most 10 newest that
are within retention. -/
def cleanupOldBackups (now : ℤ) (st : BackupState) : BackupState :=
  ⟨((listBackups st).take 10).filter fun b => decide (now - retentionMs ≤ b.timestamp)⟩

/-- `MemoryBackupSystem.createBackup` in the scenario the claims exercise
(the store file exists, the copy succeeds): a snapshot named after `now` is
written together with its metadata, then `cleanupOldBackups` runs. -/
def createBackup (now : ℤ) (st : BackupState) : BackupMeta × BackupState :=
  let meta : BackupMeta := ⟨now, now⟩
  (meta, cleanupOldBackups now ⟨st.backups ++ [meta]⟩)

/-- A sequence of `createBackup` calls at the given times. -/
def createBackupSeq (times : List ℤ) (st : BackupState) : BackupState :=
  times.foldl (fun s t => (createBackup t s).2) st

/-! ## Write retry (db.ts, writeWithRetry) -/

/-- `MAX_RETRY_ATTEMPTS` and `RETRY_DELAY_MS`. -/
def maxRetryAttempts : ℕ := 3

/-- Base delay in milliseconds for the write retry loop. -/
def retryDelayMs : ℕ := 100

/-- The lock-contention test of `writeWithRetry`:
`message.includes('SQLITE_BUSY') || message.includes('database is locked')`. -/
def isLockError (msg : String) : Bool :=
  decide (List.IsInfix "SQLITE_BUSY".data msg.data) ||
    decide (List.IsInfix "database is locked".data msg.data)

/-- Loop of `writeWithRetry`.  `op attempt` is the outcome of running the
operation on that (1-based) attempt.  Returns the surfaced outcome, the
sleep durations performed between attempts (`RETRY_DELAY_MS * attempt`),
and the number of the last attempt executed.  The fuel equals the attempts
remaining including the current one; the code enters the loop with
`attempt = 1` and fuel `maxRetryAttempts`, and the `lastError` fallback
after the loop is unreachable because the final attempt either returns or
rethrows. -/
def writeRetryGo {α : Type} (op : ℕ → Except String α) :
    ℕ → ℕ → List ℕ → Except String α × List ℕ × ℕ
  | 0, attempt, sleeps => (Except.error "Write operation failed", sleeps, attempt - 1)
  | fuel + 1, attempt, sleeps =>
    match op attempt with
    | Except.ok v => (Except.ok v, sleeps, attempt)
    | Except.error e =>
      if isLockError e && decide (attempt < maxRetryAttempts) then
        writeRetryGo op fuel (attempt + 1) (sleeps ++ [retryDelayMs * attempt])
      else (Except.error e, sleeps, attempt)

/-- `MemoryDatabase.writeWithRetry`. -/
def writeWithRetry {α : Type} (op : ℕ → Except String α) :
    Except String α × List ℕ × ℕ :=
  writeRetryGo op maxRetryAttempts 1 []

/-! ## Cosine similarity (embedding-service.ts) -/

/-- Sum of pairwise products accumulated by the loop of `cosineSimilarity`
(for equal-length vectors the indexed loop is exactly this fold over the
zipped lists). -/
def dotAcc (a b : List ℝ) : ℝ :=
  (a.zip b).foldl (fun acc p => acc + p.1 * p.2) 0

/-- The accumulated squared norm of a vector. -/
def normAcc (a : List ℝ) : ℝ :=
  a.foldl (fun acc x => acc + x * x) 0

open Classical in
/-- `EmbeddingService.cosineSimilarity`: fails on dimension mismatch,
returns 0 when the product of the magnitudes is zero, otherwise the usual
quotient. -/
noncomputable def cosineSimilarity (a b : List ℝ) : Except String ℝ :=
  if a.length ≠ b.length then Except.error "Embeddings must have the same dimension"
  else
    let magnitude := Real.sqrt (normAcc a) * Real.sqrt (normAcc b)
    if magnitude = 0 then Except.ok 0
    else Except.ok (dotAcc a b / magnitude)

/-! ## Shared lemmas -/

theorem mem_stableInsert {α : Type} (le : α → α → Bool) (x y : α) (l : List α) :
    y ∈ stableInsert le x l ↔ y = x ∨ y ∈ l := by
  induction l with
  | nil => simp [stableInsert]
  | cons z zs ih =>
    by_cases h : le z x = true
    · rw [stableInsert, if_pos h]
      simp only [List.mem_cons, ih]
      tauto
    · rw [stableInsert, if_neg h]
      simp only [List.mem_cons]

theorem length_stableInsert {α : Type} (le : α → α → Bool) (x : α) (l : List α) :
    (stableInsert le x l).length = l.length + 1 := by
  induction l with
  | nil => simp [stableInsert]
  | cons z zs ih =>
    by_cases h : le z x = true
    · simp [stableInsert, h, ih]
    · simp [stableInsert, h]

theorem mem_stableSort {α : Type} (le : α → α → Bool) (l : List α) (y : α) :
    y ∈ stableSort le l ↔ y ∈ l := by
  have key : ∀ (l acc : List α),
      y ∈ l.foldl (fun sorted x => stableInsert le x sorted) acc ↔ y ∈ acc ∨ y ∈ l := by
    intro l
    induction l with
    | nil => simp
    | cons z zs ih =>
      intro acc
      rw [List.foldl_cons, ih, mem_stableInsert]
      simp
      tauto
  rw [stableSort, key]
  simp

theorem length_stableSort {α : Type} (le : α → α → Bool) (l : List α) :
    (stableSort le l).length = l.length := by
  have key : ∀ (l acc : List α),
      (l.foldl (fun sorted x => stableInsert le x sorted) acc).length =
        acc.length + l.length := by
    intro l
    induction l with
    | nil => simp
    | cons z zs ih =>
      intro acc
      rw [List.foldl_cons, ih, length_stableInsert, List.length_cons]
      omega
  rw [stableSort, key]
  simp

theorem length_jsSlice0_le {α : Type} (l : List α) (q : ℚ) :
    (jsSlice0 l q).length ≤ l.length := by
  rw [jsSlice0]
  by_cases h : jsTrunc q < 0 <;> simp [h] <;> omega

theorem mem_jsSlice0 {α : Type} (l : List α) (q : ℚ) (x : α)
    (hx : x ∈ jsSlice0 l q) : x ∈ l := by
  rw [jsSlice0] at hx
  by_cases h : jsTrunc q < 0 <;> simp [h] at hx <;>
    exact List.mem_of_mem_take hx

/-- For a nonnegative bound, `slice(0, q)` keeps at most `q` elements. -/
theorem length_jsSlice0_le_bound {α : Type} (l : List α) (q : ℚ) (hq : 0 ≤ q) :
    ((jsSlice0 l q).length : ℚ) ≤ q := by
  have he : jsTrunc q = ⌊q⌋ := by rw [jsTrunc, if_pos hq]
  have h0 : (0 : ℤ) ≤ ⌊q⌋ := Int.floor_nonneg.mpr hq
  rw [jsSlice0, he, if_neg (by omega : ¬(⌊q⌋ < 0))]
  have hle : (l.take (⌊q⌋).toNat).length ≤ (⌊q⌋).toNat := by
    rw [List.length_take]; exact min_le_left _ _
  have h1 : ((l.take (⌊q⌋).toNat).length : ℚ) ≤ (((⌊q⌋).toNat : ℕ) : ℚ) := by
    exact_mod_cast hle
  refine le_trans h1 ?_
  have h2 : (((⌊q⌋).toNat : ℕ) : ℚ) = ((⌊q⌋ : ℤ) : ℚ) := by
    rw [← Int.toNat_of_nonneg h0]
    exact (Int.cast_natCast _).symm
  rw [h2]
  exact_mod_cast Int.floor_le q

/-- An empty store, as created by the schema on first use. -/
def emptyMemoryState : MemoryState := ⟨[], 1, [], [], 1, [], 1⟩

/-- Squared-norm accumulation over an all-zero vector stays at the
accumulator. -/
theorem normAcc_of_zeros (a : List ℝ) (h : ∀ x ∈ a, x = 0) : normAcc a = 0 := by
  have key : ∀ (l : List ℝ), (∀ x ∈ l, x = 0) → ∀ acc : ℝ,
      l.foldl (fun acc x => acc + x * x) acc = acc := by
    intro l
    induction l with
    | nil => intro _ acc; simp
    | cons z zs ih =>
      intro hz acc
      have hz0 : z = 0 := hz z (by simp)
      rw [List.foldl_cons, ih (fun x hx => hz x (by simp [hx]))]
      rw [hz0]
      ring
  rw [normAcc, key a h 0]

/-- C10: for every pair of equal-dimension vectors `cosineSimilarity` is
total (returns a value rather than failing), and if either vector is
all-zero the zero-magnitude guard returns 0 — in particular the
self-similarity of the all-zero vector is 0, not 1. -/
theorem cosineSimilarity_total_zero_guard (a b : List ℝ) (hlen : a.length = b.length) :
    (∃ r, cosineSimilarity a b = Except.ok r) ∧
    (((∀ x ∈ a, x = 0) ∨ (∀ x ∈ b, x = 0)) → cosineSimilarity a b = Except.ok 0) := by
  rw [cosineSimilarity, if_neg (by simp [hlen])]
  by_cases hm : Real.sqrt (normAcc a) * Real.sqrt (normAcc b) = 0
  · rw [if_pos hm]
    exact ⟨⟨0, rfl⟩, fun _ => rfl⟩
  · rw [if_neg hm]
    refine ⟨⟨_, rfl⟩, fun hz => absurd ?_ hm⟩
    rcases hz with hz | hz
    · rw [normAcc_of_zeros a hz, Real.sqrt_zero, zero_mul]
    · rw [normAcc_of_zeros b hz, Real.sqrt_zero, mul_zero]

/-- Witness for C10 at the all-zero vector `[0, 0, 0]`. -/
theorem cosineSimilarity_zero_guard_witness :
    ([0, 0, 0] : List ℝ).length = ([0, 0, 0] : List ℝ).length ∧
    cosineSimilarity [0, 0, 0] [0, 0, 0] = Except.ok 0 :=
  ⟨rfl, (cosineSimilarity_total_zero_guard [0, 0, 0] [0, 0, 0] rfl).2
    (Or.inl (by simp))⟩

/-- C7: with fewer than 2 turns `reflectAndSummarize` returns null before
calling the collaborator, with the store untouched (in particular no
Episode row is written). -/
theorem reflect_short_returns_null (oracle : Option ReflectionResult)
    (now sessionStart : ℤ) (sessionId : String) (messages : List ChatMessage)
    (st : MemoryState) (h : messages.length < 2) :
    reflectAndSummarize oracle now sessionStart sessionId messages st = (none, st) := by
  rw [reflectAndSummarize.eq_def, if_pos h]

/-- Witness for C7: the empty conversation and a single turn both return
null and leave the store unchanged. -/
theorem reflect_short_returns_null_witness :
    (([] : List ChatMessage).length < 2) ∧
    reflectAndSummarize none 0 0 "session" [] emptyMemoryState =
      (none, emptyMemoryState) ∧
    reflectAndSummarize none 0 0 "session" [⟨"user", "hi"⟩] emptyMemoryState =
      (none, emptyMemoryState) :=
  ⟨by decide,
    reflect_short_returns_null none 0 0 "session" [] emptyMemoryState (by decide),
    reflect_short_returns_null none 0 0 "session" [⟨"user", "hi"⟩] emptyMemoryState
      (by decide)⟩

/-- C9: storing with `isCoreFact = true` routes the content to `core_facts`
only — the `knowledge` table, its FTS index and the episodes are untouched —
with importance defaulting to 0.9, and the returned snippet-shaped value
carries `accessCount 0` and the new core fact's id. -/
theorem storeKnowledge_coreFact_frame (now : ℤ) (sessionId : Option String)
    (emb : Option (List ℚ)) (input : StoreMemoryInput) (st : MemoryState)
    (hcore : input.isCoreFact = true) :
    (storeKnowledge now sessionId emb input st).2.knowledge = st.knowledge ∧
    (storeKnowledge now sessionId emb input st).2.knowledgeFts = st.knowledgeFts ∧
    (storeKnowledge now sessionId emb input st).2.episodes = st.episodes ∧
    (storeKnowledge now sessionId emb input st).1.accessCount = 0 ∧
    (storeKnowledge now sessionId emb input st).1.id = st.coreNextId ∧
    (storeKnowledge now sessionId emb input st).2.coreFacts =
      st.coreFacts ++ [⟨st.coreNextId, input.content, input.category,
        input.importance.getD (9/10), now, now, true⟩] ∧
    (input.importance = none →
      (storeKnowledge now sessionId emb input st).1.importance = 9/10) := by
  refine ⟨?_, ?_, ?_, ?_, ?_, ?_, fun hnone => ?_⟩ <;>
    simp [storeKnowledge, addFact, hcore]
  rw [hnone]
  rfl

/-- Witness for C9 on a concrete core-fact store against the empty state. -/
theorem storeKnowledge_coreFact_frame_witness :
    (⟨"user likes tea", MemoryCategory.preference, none, none, none, true⟩ :
        StoreMemoryInput).isCoreFact = true ∧
    (storeKnowledge 0 none none
      ⟨"user likes tea", MemoryCategory.preference, none, none, none, true⟩
      emptyMemoryState).2.knowledge = emptyMemoryState.knowledge ∧
    (storeKnowledge 0 none none
      ⟨"user likes tea", MemoryCategory.preference, none, none, none, true⟩
      emptyMemoryState).1.importance = 9/10 :=
  ⟨rfl,
    (storeKnowledge_coreFact_frame 0 none none _ emptyMemoryState rfl).1,
    (storeKnowledge_coreFact_frame 0 none none _ emptyMemoryState rfl).2.2.2.2.2.2 rfl⟩

/-- C8: every `writeWithRetry` run is bounded at `MAX_RETRY_ATTEMPTS = 3`
attempts; the sleeps performed are `RETRY_DELAY_MS * attempt` for each
retried attempt (an increasing sequence); and the run falls into exactly the
expected cases — success, a non-lock error surfaced immediately on the
attempt that raised it, a lock error retried, and a third-attempt failure
surfaced after the attempts are exhausted. -/
theorem writeWithRetry_bounded_backoff {α : Type} (op : ℕ → Except String α) :
    (writeWithRetry op).2.2 ≤ maxRetryAttempts ∧
    (writeWithRetry op).2.1 =
      (List.range' 1 ((writeWithRetry op).2.2 - 1)).map (fun i => retryDelayMs * i) ∧
    ((∃ v, op 1 = Except.ok v ∧ writeWithRetry op = (op 1, [], 1)) ∨
     (∃ e, op 1 = Except.error e ∧ isLockError e = false ∧
        writeWithRetry op = (Except.error e, [], 1)) ∨
     (∃ e v, op 1 = Except.error e ∧ isLockError e = true ∧ op 2 = Except.ok v ∧
        writeWithRetry op = (op 2, [100], 2)) ∨
     (∃ e e2, op 1 = Except.error e ∧ isLockError e = true ∧
        op 2 = Except.error e2 ∧ isLockError e2 = false ∧
        writeWithRetry op = (Except.error e2, [100], 2)) ∨
     (∃ e e2 v, op 1 = Except.error e ∧ isLockError e = true ∧
        op 2 = Except.error e2 ∧ isLockError e2 = true ∧ op 3 = Except.ok v ∧
        writeWithRetry op = (op 3, [100, 200], 3)) ∨
     (∃ e e2 e3, op 1 = Except.error e ∧ isLockError e = true ∧
        op 2 = Except.error e2 ∧ isLockError e2 = true ∧ op 3 = Except.error e3 ∧
        writeWithRetry op = (Except.error e3, [100, 200], 3))) := by
  have hcases :
      (∃ v, op 1 = Except.ok v ∧ writeWithRetry op = (op 1, [], 1)) ∨
      (∃ e, op 1 = Except.error e ∧ isLockError e = false ∧
         writeWithRetry op = (Except.error e, [], 1)) ∨
      (∃ e v, op 1 = Except.error e ∧ isLockError e = true ∧ op 2 = Except.ok v ∧
         writeWithRetry op = (op 2, [100], 2)) ∨
      (∃ e e2, op 1 = Except.error e ∧ isLockError e = true ∧
         op 2 = Except.error e2 ∧ isLockError e2 = false ∧
         writeWithRetry op = (Except.error e2, [100], 2)) ∨
      (∃ e e2 v, op 1 = Except.error e ∧ isLockError e = true ∧
         op 2 = Except.error e2 ∧ isLockError e2 = true ∧ op 3 = Except.ok v ∧
         writeWithRetry op = (op 3, [100, 200], 3)) ∨
      (∃ e e2 e3, op 1 = Except.error e ∧ isLockError e = true ∧
         op 2 = Except.error e2 ∧ isLockError e2 = true ∧ op 3 = Except.error e3 ∧
         writeWithRetry op = (Except.error e3, [100, 200], 3)) := by
    rcases h1 : op 1 with e1 | v1
    · rcases hl1 : isLockError e1 with _ | _
      · refine Or.inr (Or.inl ⟨e1, rfl, hl1, ?_⟩)
        simp [writeWithRetry, writeRetryGo, maxRetryAttempts, h1, hl1]
      · rcases h2 : op 2 with e2 | v2
        · rcases hl2 : isLockError e2 with _ | _
          · refine Or.inr (Or.inr (Or.inr (Or.inl ⟨e1, e2, rfl, hl1, rfl, hl2, ?_⟩)))
            simp [writeWithRetry, writeRetryGo, maxRetryAttempts, retryDelayMs,
              h1, hl1, h2, hl2]
          · rcases h3 : op 3 with e3 | v3
            · refine Or.inr (Or.inr (Or.inr (Or.inr (Or.inr
                ⟨e1, e2, e3, rfl, hl1, rfl, hl2, rfl, ?_⟩))))
              simp [writeWithRetry, writeRetryGo, maxRetryAttempts, retryDelayMs,
                h1, hl1, h2, hl2, h3]
            · refine Or.inr (Or.inr (Or.inr (Or.inr (Or.inl
                ⟨e1, e2, v3, rfl, hl1, rfl, hl2, rfl, ?_⟩))))
              simp [writeWithRetry, writeRetryGo, maxRetryAttempts, retryDelayMs,
                h1, hl1, h2, hl2, h3]
        · refine Or.inr (Or.inr (Or.inl ⟨e1, v2, rfl, hl1, rfl, ?_⟩))
          simp [writeWithRetry, writeRetryGo, maxRetryAttempts, retryDelayMs,
            h1, hl1, h2]
    · refine Or.inl ⟨v1, rfl, ?_⟩
      simp [writeWithRetry, writeRetryGo, maxRetryAttempts, h1]
  refine ⟨?_, ?_, hcases⟩
  · rcases hcases with ⟨v, _, hw⟩ | ⟨e, _, _, hw⟩ | ⟨e, v, _, _, _, hw⟩ |
      ⟨e, e2, _, _, _, _, hw⟩ | ⟨e, e2, v, _, _, _, _, _, hw⟩ |
      ⟨e, e2, e3, _, _, _, _, _, hw⟩ <;>
      rw [hw] <;> simp [maxRetryAttempts]
  · rcases hcases with ⟨v, _, hw⟩ | ⟨e, _, _, hw⟩ | ⟨e, v, _, _, _, hw⟩ |
      ⟨e, e2, _, _, _, _, hw⟩ | ⟨e, e2, v, _, _, _, _, _, hw⟩ |
      ⟨e, e2, e3, _, _, _, _, _, hw⟩ <;>
      rw [hw] <;> simp [retryDelayMs, List.range']

/-- Cleanup keeps at most `MAX_BACKUP_FILES = 10` snapshots. -/
theorem cleanupOldBackups_card (now : ℤ) (st : BackupState) :
    (cleanupOldBackups now st).backups.length ≤ 10 := by
  rw [cleanupOldBackups]
  refine le_trans (List.length_filter_le _ _) ?_
  rw [List.length_take]
  exact min_le_left _ _

/-- Every snapshot surviving cleanup is within the 7-day retention
window of the cleanup time. -/
theorem cleanupOldBackups_mem (now : ℤ) (st : BackupState) (b : BackupMeta)
    (hb : b ∈ (cleanupOldBackups now st).backups) : now - retentionMs ≤ b.timestamp := by
  rw [cleanupOldBackups] at hb
  have := (List.mem_filter.mp hb).2
  exact of_decide_eq_true this

/-- C5: after 12 backups, each strictly more than 24 hours after the
previous one, the retention sweep that runs inside every `createBackup`
leaves at most 10 snapshots, and the snapshots of the two oldest creation
times are gone. -/
theorem backup_retention_after_12 (t0 t1 t2 t3 t4 t5 t6 t7 t8 t9 t10 t11 : ℤ)
    (h01 : t0 + 86400000 < t1) (h12 : t1 + 86400000 < t2)
    (h23 : t2 + 86400000 < t3) (h34 : t3 + 86400000 < t4)
    (h45 : t4 + 86400000 < t5) (h56 : t5 + 86400000 < t6)
    (h67 : t6 + 86400000 < t7) (h78 : t7 + 86400000 < t8)
    (h89 : t8 + 86400000 < t9) (h910 : t9 + 86400000 < t10)
    (h1011 : t10 + 86400000 < t11) :
    (listBackups (createBackupSeq [t0, t1, t2, t3, t4, t5, t6, t7, t8, t9, t10, t11]
        ⟨[]⟩)).length ≤ 10 ∧
    ∀ b ∈ (createBackupSeq [t0, t1, t2, t3, t4, t5, t6, t7, t8, t9, t10, t11]
        ⟨[]⟩).backups, b.timestamp ≠ t0 ∧ b.timestamp ≠ t1 := by
  have hfin : createBackupSeq [t0, t1, t2, t3, t4, t5, t6, t7, t8, t9, t10, t11] ⟨[]⟩ =
      cleanupOldBackups t11
        ⟨(createBackupSeq [t0, t1, t2, t3, t4, t5, t6, t7, t8, t9, t10] ⟨[]⟩).backups ++
          [⟨t11, t11⟩]⟩ := by
    rfl
  constructor
  · rw [hfin, listBackups, length_stableSort]
    exact cleanupOldBackups_card _ _
  · intro b hb
    rw [hfin] at hb
    have hts := cleanupOldBackups_mem _ _ _ hb
    rw [retentionMs] at hts
    constructor <;> intro heq <;> rw [heq] at hts <;> linarith

/-- Witness for C5: twelve backups 25 hours apart. -/
theorem backup_retention_after_12_witness :
    ((0 : ℤ) + 86400000 < 90000000) ∧
    ((listBackups (createBackupSeq
        [0, 90000000, 180000000, 270000000, 360000000, 450000000, 540000000,
         630000000, 720000000, 810000000, 900000000, 990000000] ⟨[]⟩)).length ≤ 10 ∧
      ∀ b ∈ (createBackupSeq
        [0, 90000000, 180000000, 270000000, 360000000, 450000000, 540000000,
         630000000, 720000000, 810000000, 900000000, 990000000] ⟨[]⟩).backups,
        b.timestamp ≠ 0 ∧ b.timestamp ≠ 90000000) :=
  ⟨by norm_num,
    backup_retention_after_12 0 90000000 180000000 270000000 360000000 450000000
      540000000 630000000 720000000 810000000 900000000 990000000
      (by norm_num) (by norm_num) (by norm_num) (by norm_num) (by norm_num)
      (by norm_num) (by norm_num) (by norm_num) (by norm_num) (by norm_num)
      (by norm_num)⟩

/-- Grouping helper: concatenating the non-empty per-category groups (the
skipped empty groups contribute nothing) recovers the per-category slices in
order. -/
theorem groups_flatMap_eq {β γ : Type} [DecidableEq γ] (order : List β) (grp : β → List γ) :
    ((order.filterMap fun c =>
        if grp c = [] then none else some (c, grp c)).flatMap fun g => g.2) =
      order.flatMap grp := by
  induction order with
  | nil => rfl
  | cons c cs ih =>
    by_cases hc : grp c = []
    · simp [List.filterMap_cons, hc, ih]
    · simp [List.filterMap_cons, hc, ih]

/-- C6: `buildPromptSection` returns the empty string exactly when there is
no active core fact; the rendered groups are, in the fixed priority order,
exactly the per-category slices of the ordered active facts; and every fact
rendered in any group is active. -/
theorem buildPromptSection_spec (facts : List CoreFact) :
    (buildPromptSection facts = "" ↔ (facts.filter fun f => f.active) = []) ∧
    ((promptGroups facts).flatMap fun g => g.2) =
      (categoryOrder.flatMap fun c =>
        (getActiveFacts facts).filter fun f => f.category = c) ∧
    (∀ g ∈ promptGroups facts, ∀ f ∈ g.2, f.active = true) := by
  refine ⟨?_, ?_, ?_⟩
  · constructor
    · intro hempty
      by_contra hne
      have hlen : (getActiveFacts facts).length = (facts.filter fun f => f.active).length := by
        rw [getActiveFacts, length_stableSort]
      have hact : ¬(getActiveFacts facts = []) := by
        intro h0
        apply hne
        have hl0 : (facts.filter fun f => f.active).length = 0 := by
          rw [← hlen, h0]
          rfl
        exact List.length_eq_zero.mp hl0
      rw [buildPromptSection, if_neg hact] at hempty
      have hlen2 := congrArg String.length hempty
      rw [String.length_append] at hlen2
      have hpos : 0 <
          ("## Core Context\n\nThe following information has been established about the user and environment:\n\n" :
            String).length := by decide
      have h0 : ("" : String).length = 0 := rfl
      omega
    · intro hfe
      rw [buildPromptSection, if_pos]
      rw [getActiveFacts, hfe]
      rfl
  · rw [promptGroups]
    exact groups_flatMap_eq categoryOrder
      (fun c => (getActiveFacts facts).filter fun f => f.category = c)
  · intro g hg f hf
    rw [promptGroups] at hg
    rcases List.mem_filterMap.mp hg with ⟨c, _, hc⟩
    by_cases hemp : ((getActiveFacts facts).filter fun f => f.category = c) = []
    · rw [if_pos hemp] at hc
      exact absurd hc (by simp)
    · rw [if_neg hemp] at hc
      have hg2 : g.2 = (getActiveFacts facts).filter fun f => f.category = c := by
        rw [← Option.some_inj.mp hc]
      rw [hg2] at hf
      have hmem : f ∈ getActiveFacts facts := (List.mem_filter.mp hf).1
      rw [getActiveFacts, mem_stableSort] at hmem
      exact (List.mem_filter.mp hmem).2

/-- Witness for C6: an inactive-only fact list renders as the empty string. -/
theorem buildPromptSection_spec_witness :
    (List.filter (fun f => f.active)
      [(⟨1, "old note", MemoryCategory.fact, 1/2, 0, 0, false⟩ : CoreFact)] = []) ∧
    buildPromptSection
      [(⟨1, "old note", MemoryCategory.fact, 1/2, 0, 0, false⟩ : CoreFact)] = "" :=
  ⟨by decide, (buildPromptSection_spec _).1.mpr (by decide)⟩

/-- Inserting an element that may follow everything appends it. -/
theorem stableInsert_append {α : Type} (le : α → α → Bool) (x : α) (l : List α)
    (h : ∀ y ∈ l, le y x = true) : stableInsert le x l = l ++ [x] := by
  induction l with
  | nil => rfl
  | cons z zs ih =>
    rw [stableInsert, if_pos (h z (by simp))]
    rw [ih fun y hy => h y (by simp [hy])]
    rfl

/-- A list already sorted for `le` is fixed by `stableSort`. -/
theorem stableSort_eq_self {α : Type} (le : α → α → Bool) (l : List α)
    (h : List.Pairwise (fun a b => le a b = true) l) : stableSort le l = l := by
  have key : ∀ (l acc : List α), (∀ x ∈ l, ∀ y ∈ acc, le y x = true) →
      List.Pairwise (fun a b => le a b = true) l →
      l.foldl (fun sorted x => stableInsert le x sorted) acc = acc ++ l := by
    intro l
    induction l with
    | nil => intro acc _ _; simp
    | cons x xs ih =>
      intro acc hcross hpw
      rw [List.foldl_cons, stableInsert_append le x acc (hcross x (by simp))]
      rw [ih (acc ++ [x]) ?_ (List.pairwise_cons.mp hpw).2]
      · simp
      · intro z hz y hy
        rcases List.mem_append.mp hy with hy | hy
        · exact hcross z (by simp [hz]) y hy
        · rw [List.mem_singleton.mp hy]
          exact (List.pairwise_cons.mp hpw).1 z hz
  rw [stableSort, key l [] (by simp) h]
  rfl

/-- Elements of the deduplication loop output come from the pending list or
the accumulator. -/
theorem mem_dedupGo (pending unique : List KnowledgeSearchResult) (seen : List String)
    (r : KnowledgeSearchResult) (hr : r ∈ dedupGo pending unique seen) :
    r ∈ unique ∨ r ∈ pending := by
  induction pending generalizing unique seen with
  | nil => simp [dedupGo] at hr; exact Or.inl hr
  | cons x xs ih =>
    rw [dedupGo] at hr
    split at hr
    · rcases ih _ _ hr with h | h
      · exact Or.inl h
      · exact Or.inr (by simp [h])
    · rcases ih _ _ hr with h | h
      · rcases List.mem_append.mp h with h | h
        · exact Or.inl h
        · exact Or.inr (by simp [List.mem_singleton.mp h])
      · exact Or.inr (by simp [h])

/-- Deduplication never invents results. -/
theorem mem_smartDeduplication (l : List KnowledgeSearchResult)
    (r : KnowledgeSearchResult) (hr : r ∈ smartDeduplication l) : r ∈ l := by
  rw [smartDeduplication] at hr
  split at hr
  · exact hr
  · rcases mem_dedupGo _ _ _ _ hr with h | h
    · exact absurd h (List.not_mem_nil r)
    · exact (mem_stableSort _ _ _).mp h

/-- The final limiting step never invents results. -/
theorem mem_applyAdaptiveLimiting (l : List KnowledgeSearchResult) (t : ℚ)
    (a : QueryAnalysis) (r : KnowledgeSearchResult)
    (hr : r ∈ applyAdaptiveLimiting l t a) : r ∈ l := by
  rw [applyAdaptiveLimiting] at hr
  split at hr
  · exact hr
  · split at hr
    · exact (List.mem_filter.mp hr).1
    · exact mem_jsSlice0 _ _ _ hr

/-- Every keyword-stage result carries match type `keyword`. -/
theorem qkQualityFts_matchType (input : QueryMemoryInput)
    (ftsRows : List (KnowledgeSnippet × ℚ)) (r : KnowledgeSearchResult)
    (hr : r ∈ qkQualityFts input ftsRows) : r.matchType = MatchType.keyword := by
  have hmem := (List.mem_filter.mp hr).1
  rw [searchFTSModel] at hmem
  rcases List.mem_map.mp hmem with ⟨p, _, hp⟩
  rw [← hp]

/-- Any semantic result surviving the merge cleared the query-type minimum
semantic score. -/
theorem qkMerged_semantic_min (enableEmbeddings : Bool) (input : QueryMemoryInput)
    (ftsRows semRows : List (KnowledgeSnippet × ℚ)) (r : KnowledgeSearchResult)
    (hr : r ∈ qkMerged enableEmbeddings input ftsRows semRows)
    (hsem : r.matchType = MatchType.semantic) :
    (analyzeQuery input.query).minSemanticScore ≤ r.score := by
  rw [qkMerged] at hr
  split at hr
  · rcases List.mem_append.mp hr with h | h
    · rw [qkQualityFts_matchType input ftsRows r h] at hsem
      exact absurd hsem (by simp)
    · have hcond := (List.mem_filter.mp h).2
      rw [Bool.and_eq_true] at hcond
      exact of_decide_eq_true hcond.2
  · rw [qkQualityFts_matchType input ftsRows r hr] at hsem
    exact absurd hsem (by simp)

/-- The threshold of `analyzeQuery` is raised to 0.7 when the lowercased
query splits into fewer than 3 elements. -/
theorem minSemanticScore_of_short (q : String)
    (h : (jsSplitWS (jsToLower q)).length < 3) :
    (analyzeQuery q).minSemanticScore = 7/10 := by
  simp only [analyzeQuery]
  rw [if_pos h]

/-- C4 (amended): for every query whose lowercased JavaScript
`split(/\s+/)` has fewer than 3 elements, every returned semantic result
carries a similarity score of at least 0.7.  (For queries without leading or
trailing whitespace this element count is exactly the whitespace-separated
token count.) -/
theorem queryKnowledge_short_query_semantic_min (now : ℤ) (enableEmbeddings : Bool)
    (ftsRows semRows : List (KnowledgeSnippet × ℚ)) (input : QueryMemoryInput)
    (hshort : (jsSplitWS (jsToLower input.query)).length < 3) :
    ∀ r ∈ queryKnowledge now enableEmbeddings ftsRows semRows input,
      r.matchType = MatchType.semantic → (7/10 : ℚ) ≤ r.score := by
  intro r hr hsem
  rw [queryKnowledge] at hr
  have h1 := mem_applyAdaptiveLimiting _ _ _ _ hr
  have h2 := (mem_stableSort _ _ _).mp h1
  have h3 := mem_smartDeduplication _ _ h2
  have h4 := qkMerged_semantic_min enableEmbeddings input ftsRows semRows r h3 hsem
  rw [minSemanticScore_of_short input.query hshort] at h4
  exact h4

/-- A snippet used in the C4 counterexample: embedded, similarity 0.5
against the query. -/
def c4Snip : KnowledgeSnippet :=
  ⟨1, "pli", MemoryCategory.fact, 0, MemorySource.explicit, [], none, 0, 0, 0⟩

/-- Counterexample to C4 as stated: the query `" a b"` has 2
whitespace-separated tokens, yet JavaScript `split(/\s+/)` counts a third,
empty, token for the leading space, so the 0.7 floor is not applied and a
semantic result of similarity 0.5 is returned. -/
theorem queryKnowledge_short_query_counterexample :
    tokenCountWS " a b" = 2 ∧
    queryKnowledge 0 true [] [(c4Snip, 1/2)] ⟨" a b", none, none⟩ =
      [⟨c4Snip, 1/2, MatchType.semantic⟩] ∧
    ((1 : ℚ)/2 < 7/10) := by
  refine ⟨by decide, ?_, by norm_num⟩
  have hlen : (jsSplitWS (jsToLower " a b")).length = 3 := by decide
  have hspecB : (specificPatternsTest " a b" ||
      ((jsSplitWS (jsToLower " a b")).any fun w => decide (8 < w.length))) = false := by decide
  have hprefB : (preferenceKeywords.any fun kw =>
      (jsSplitWS (jsToLower " a b")).contains kw) = false := by decide
  have hfactB : (factualKeywords.any fun kw =>
      (jsSplitWS (jsToLower " a b")).contains kw) = false := by decide
  have hana : analyzeQuery " a b" = ⟨false, false, false, 3/10, 2/5⟩ := by
    simp only [analyzeQuery, hspecB, hprefB, hfactB, hlen]
    norm_num
  have hdyn : qkDynamicLimit ⟨" a b", none, none⟩ = 10 := by
    show calculateOptimalLimit (analyzeQuery " a b") none = 10
    rw [hana, calculateOptimalLimit]
    norm_num [qkBaseLimit]
  have hq : qkQualityFts ⟨" a b", none, none⟩ [] = [] := rfl
  have hl2 : (jsSplitWS " a b").length = 3 := by decide
  have hthr : calculateSemanticThreshold " a b" 1 = 2/5 := by
    rw [calculateSemanticThreshold]
    norm_num [hl2]
  have hsearch : searchSemanticModel " a b" [(c4Snip, 1/2)] 10 =
      [⟨c4Snip, 1/2, MatchType.semantic⟩] := by
    simp only [searchSemanticModel]
    rw [show ([(c4Snip, (1:ℚ)/2)]).length = 1 from rfl, hthr]
    norm_num [List.filter_cons, stableSort, stableInsert, List.foldl, jsSlice0, jsTrunc]
  have hmerged : qkMerged true ⟨" a b", none, none⟩ [] [(c4Snip, 1/2)] =
      [⟨c4Snip, 1/2, MatchType.semantic⟩] := by
    simp only [qkMerged, hq, hdyn]
    norm_num [hsearch, hana, List.filter_cons]
  rw [queryKnowledge]
  simp only [hmerged, hdyn]
  rw [show smartDeduplication [⟨c4Snip, 1/2, MatchType.semantic⟩] =
      [⟨c4Snip, 1/2, MatchType.semantic⟩] from by
        rw [smartDeduplication, if_pos (by norm_num)]]
  rw [show stableSort (fun a b =>
      decide (calculateRelevanceScore 0 b (analyzeQuery " a b") ≤
        calculateRelevanceScore 0 a (analyzeQuery " a b")))
      [⟨c4Snip, 1/2, MatchType.semantic⟩] = [⟨c4Snip, 1/2, MatchType.semantic⟩] from rfl]
  rw [applyAdaptiveLimiting, if_pos (by norm_num)]

/-- Witness for the amended C4 at a one-token query with a high-similarity
embedded row. -/
theorem queryKnowledge_short_query_witness :
    ((jsSplitWS (jsToLower "ab")).length < 3) ∧
    ∀ r ∈ queryKnowledge 0 true [] [(c4Snip, 8/10)] ⟨"ab", none, none⟩,
      r.matchType = MatchType.semantic → (7/10 : ℚ) ≤ r.score :=
  ⟨by decide,
    queryKnowledge_short_query_semantic_min 0 true [] [(c4Snip, 8/10)]
      ⟨"ab", none, none⟩ (by decide)⟩

/-- The population variance of the score distribution is nonnegative. -/
theorem varOf_nonneg (l : List ℚ) : 0 ≤ varOf l := by
  rw [varOf]
  apply div_nonneg
  · apply List.sum_nonneg
    intro x hx
    rcases List.mem_map.mp hx with ⟨s, _, hs⟩
    rw [← hs]
    positivity
  · positivity

/-- The decidable quality filter agrees with the source's
`score >= avgScore + scoreStdDev * 0.5` read over the reals. -/
theorem scoreAtOrAbove_iff (s avg v : ℚ) (hv : 0 ≤ v) :
    scoreAtOrAbove s avg v = true ↔
      ((avg : ℝ) + Real.sqrt (v : ℝ) * (1/2) ≤ (s : ℝ)) := by
  rw [scoreAtOrAbove, decide_eq_true_eq]
  constructor
  · rintro ⟨h1, h2⟩
    have h1r : (avg : ℝ) ≤ (s : ℝ) := by exact_mod_cast h1
    have h2r : (v : ℝ) ≤ 4 * ((s : ℝ) - avg)^2 := by exact_mod_cast h2
    have hw : Real.sqrt (v : ℝ) ≤ 2 * ((s : ℝ) - avg) := by
      calc Real.sqrt (v : ℝ) ≤ Real.sqrt (4 * ((s : ℝ) - avg)^2) := Real.sqrt_le_sqrt h2r
        _ = 2 * ((s : ℝ) - avg) := by
            rw [show (4 : ℝ) * ((s : ℝ) - avg)^2 = (2 * ((s : ℝ) - avg))^2 by ring,
              Real.sqrt_sq (by linarith)]
    linarith
  · intro h
    have hs := Real.sqrt_nonneg (v : ℝ)
    have h1r : (avg : ℝ) ≤ (s : ℝ) := by linarith
    have hvr : (0 : ℝ) ≤ (v : ℝ) := by exact_mod_cast hv
    refine ⟨by exact_mod_cast h1r, ?_⟩
    have hw : Real.sqrt (v : ℝ) ≤ 2 * ((s : ℝ) - avg) := by linarith
    have hv2 : (v : ℝ) ≤ 4 * ((s : ℝ) - avg)^2 := by
      have := Real.sq_sqrt hvr
      nlinarith [hw, hs]
    exact_mod_cast hv2

/-- C2 (amended): the final limiting step returns the set unchanged when it
is within the dynamic limit; otherwise it computes mean and standard
deviation of the *raw* search scores (not the step-6 composite relevance
scores), keeps every result whose raw score is at or above
`mean + 0.5 × stddev` provided the kept count does not exceed 1.5× the
dynamic limit, and otherwise hard-truncates to the dynamic limit. -/
theorem applyAdaptiveLimiting_raw_spec (results : List KnowledgeSearchResult)
    (t : ℚ) (a : QueryAnalysis) :
    ((results.length : ℚ) ≤ t → applyAdaptiveLimiting results t a = results) ∧
    (t < (results.length : ℚ) →
      (∀ s : ℚ,
        scoreAtOrAbove s (avgOf (rawScores results)) (varOf (rawScores results)) = true ↔
          ((avgOf (rawScores results) : ℝ) +
            Real.sqrt ((varOf (rawScores results) : ℚ) : ℝ) * (1/2) ≤ (s : ℝ))) ∧
      applyAdaptiveLimiting results t a =
        if ((rawHighQuality results).length : ℚ) ≤ t * (3/2) then rawHighQuality results
        else jsSlice0 results t) := by
  constructor
  · intro h
    rw [applyAdaptiveLimiting, if_pos h]
  · intro h
    refine ⟨fun s => scoreAtOrAbove_iff s _ _ (varOf_nonneg _), ?_⟩
    rw [applyAdaptiveLimiting, if_neg (not_le.mpr h)]

/-- Snippet A of the C2 counterexample (importance 0). -/
def c2SnipA : KnowledgeSnippet :=
  ⟨1, "a", MemoryCategory.fact, 0, MemorySource.explicit, [], none, 0, 0, 0⟩

/-- Snippet B of the C2 counterexample (importance 1). -/
def c2SnipB : KnowledgeSnippet :=
  ⟨2, "b", MemoryCategory.fact, 1, MemorySource.explicit, [], none, 0, 0, 0⟩

/-- Raw score 1.0, low composite. -/
def c2ResA : KnowledgeSearchResult := ⟨c2SnipA, 1, MatchType.keyword⟩

/-- Raw score 0.9, high composite (importance boost). -/
def c2ResB : KnowledgeSearchResult := ⟨c2SnipB, 9/10, MatchType.keyword⟩

/-- A neutral query analysis for the C2 counterexample. -/
def c2Analysis : QueryAnalysis := ⟨false, false, false, 1/10, 2/5⟩

/-- Counterexample to C2 as stated: with raw scores `[0.9, 1.0]` but
composite scores `[1.15, 1.1]` (importance boost flips the order), the code
keeps the raw-score winner while the claim's composite-score rule would keep
the other result. -/
theorem applyAdaptiveLimiting_composite_counterexample :
    applyAdaptiveLimiting [c2ResB, c2ResA] 1 c2Analysis = [c2ResA] ∧
    applyAdaptiveLimitingClaimC2 0 [c2ResB, c2ResA] 1 c2Analysis = [c2ResB] ∧
    applyAdaptiveLimiting [c2ResB, c2ResA] 1 c2Analysis ≠
      applyAdaptiveLimitingClaimC2 0 [c2ResB, c2ResA] 1 c2Analysis := by
  have hcode : applyAdaptiveLimiting [c2ResB, c2ResA] 1 c2Analysis = [c2ResA] := by
    have hq : rawHighQuality [c2ResB, c2ResA] = [c2ResA] := by
      norm_num [rawHighQuality, rawScores, avgOf, varOf, scoreAtOrAbove, List.filter_cons,
        c2ResA, c2ResB, c2SnipA, c2SnipB]
    rw [applyAdaptiveLimiting, if_neg (by norm_num), hq, if_pos (by norm_num)]
  have hclaim : applyAdaptiveLimitingClaimC2 0 [c2ResB, c2ResA] 1 c2Analysis = [c2ResB] := by
    have hrelA : calculateRelevanceScore 0 c2ResA c2Analysis = 11/10 := by
      norm_num [calculateRelevanceScore, c2ResA, c2SnipA, c2Analysis]
    have hrelB : calculateRelevanceScore 0 c2ResB c2Analysis = 23/20 := by
      norm_num [calculateRelevanceScore, c2ResB, c2SnipB, c2Analysis]
    rw [applyAdaptiveLimitingClaimC2, if_neg (by norm_num)]
    norm_num [hrelA, hrelB, avgOf, varOf, scoreAtOrAbove, List.filter_cons]
  refine ⟨hcode, hclaim, ?_⟩
  rw [hcode, hclaim]
  simp [c2ResA, c2ResB, c2SnipA, c2SnipB]

/-- Witness for the amended C2 at the concrete two-result list. -/
theorem applyAdaptiveLimiting_raw_spec_witness :
    ((1 : ℚ) < (([c2ResB, c2ResA] : List KnowledgeSearchResult).length : ℚ)) ∧
    applyAdaptiveLimiting [c2ResB, c2ResA] 1 c2Analysis =
      (if ((rawHighQuality [c2ResB, c2ResA]).length : ℚ) ≤ 1 * (3/2)
        then rawHighQuality [c2ResB, c2ResA]
        else jsSlice0 [c2ResB, c2ResA] 1) :=
  ⟨by norm_num,
    ((applyAdaptiveLimiting_raw_spec [c2ResB, c2ResA] 1 c2Analysis).2 (by norm_num)).2⟩

theorem any_congr_mem {α : Type} (l₁ l₂ : List α) (p : α → Bool)
    (h : ∀ x, x ∈ l₁ ↔ x ∈ l₂) : l₁.any p = l₂.any p := by
  by_cases h1 : l₁.any p = true
  · rcases List.any_eq_true.mp h1 with ⟨x, hx, hpx⟩
    rw [h1]
    exact (List.any_eq_true.mpr ⟨x, (h x).mp hx, hpx⟩).symm
  · have h2 : ¬l₂.any p = true := by
      intro hc
      rcases List.any_eq_true.mp hc with ⟨x, hx, hpx⟩
      exact h1 (List.any_eq_true.mpr ⟨x, (h x).mpr hx, hpx⟩)
    rw [Bool.not_eq_true] at h1 h2
    rw [h1, h2]

theorem any_map_general {α β : Type} (f : α → β) (l : List α) (p : β → Bool) :
    (l.map f).any p = l.any fun x => p (f x) := by
  induction l with
  | nil => rfl
  | cons x xs ih => simp [List.any_cons, ih]

theorem dedupGo_eq_spec (pending : List KnowledgeSearchResult) :
    ∀ (unique : List KnowledgeSearchResult) (seen : List String)
      (sets : List (List String)),
      (∀ ws, (∃ s ∈ seen, ws = jsSetOfList (jsSplitWS s)) ↔ ws ∈ sets) →
      dedupGo pending unique seen = dedupSpecGo pending unique sets := by
  induction pending with
  | nil => intro unique seen sets _; rfl
  | cons r rest ih =>
    intro unique seen sets hinv
    rw [dedupGo, dedupSpecGo]
    have hany : (seen.any fun s => decide (7/10 <
        calculateWordOverlap
          (jsSetOfList ((jsSplitWS (jsToLower r.snippet.content)).filter fun w => 3 < w.length))
          (jsSetOfList (jsSplitWS s)))) =
        (sets.any fun ws => decide (7/10 <
          calculateWordOverlap (longWordSet r.snippet.content) ws)) := by
      have hmap : (seen.any fun s => decide (7/10 <
          calculateWordOverlap (longWordSet r.snippet.content) (jsSetOfList (jsSplitWS s)))) =
          ((seen.map fun s => jsSetOfList (jsSplitWS s)).any fun ws => decide (7/10 <
            calculateWordOverlap (longWordSet r.snippet.content) ws)) :=
        (any_map_general (fun s => jsSetOfList (jsSplitWS s)) seen
          (fun ws => decide (7/10 <
            calculateWordOverlap (longWordSet r.snippet.content) ws))).symm
      rw [show (jsSetOfList ((jsSplitWS (jsToLower r.snippet.content)).filter fun w =>
          3 < w.length)) = longWordSet r.snippet.content from rfl]
      rw [hmap]
      apply any_congr_mem
      intro ws
      rw [List.mem_map]
      constructor
      · rintro ⟨s, hs, hws⟩
        exact (hinv ws).mp ⟨s, hs, hws.symm⟩
      · intro hws
        rcases (hinv ws).mpr hws with ⟨s, hs, hws2⟩
        exact ⟨s, hs, hws2.symm⟩
    rw [hany]
    split
    · exact ih unique seen sets hinv
    · apply ih
      intro ws
      rw [jsSetAdd]
      by_cases hmem : seen.contains (jsToLower r.snippet.content)
      · rw [if_pos hmem]
        constructor
        · intro hex
          rcases hex with ⟨s, hs, hws⟩
          exact List.mem_append.mpr (Or.inl ((hinv ws).mp ⟨s, hs, hws⟩))
        · intro hws
          rcases List.mem_append.mp hws with hws | hws
          · exact (hinv ws).mpr hws
          · rw [List.mem_singleton.mp hws]
            refine ⟨jsToLower r.snippet.content, ?_, ?_⟩
            · simpa using hmem
            · rw [allWordSet]
      · rw [if_neg hmem]
        constructor
        · rintro ⟨s, hs, hws⟩
          rcases List.mem_append.mp hs with hs | hs
          · exact List.mem_append.mpr (Or.inl ((hinv ws).mp ⟨s, hs, hws⟩))
          · rw [List.mem_singleton.mp hs] at hws
            exact List.mem_append.mpr (Or.inr (by rw [allWordSet] at *; simp [hws]))
        · intro hws
          rcases List.mem_append.mp hws with hws | hws
          · rcases (hinv ws).mpr hws with ⟨s, hs, hws2⟩
            exact ⟨s, List.mem_append.mpr (Or.inl hs), hws2⟩
          · refine ⟨jsToLower r.snippet.content, List.mem_append.mpr (Or.inr (by simp)), ?_⟩
            rw [List.mem_singleton.mp hws, allWordSet]

/-- C3 (amended): deduplication is skipped for at most 3 results; otherwise
candidates are processed in descending score order and a candidate is
discarded exactly when the overlap of its words longer than 3 characters
with some previously accepted result's *full, unfiltered* word set (all
whitespace-separated words of that lowercased content) exceeds 0.7 — as the
spec-worded `smartDeduplicationSpec`, which carries those accepted word
sets explicitly, computes. -/
theorem smartDeduplication_eq_spec (results : List KnowledgeSearchResult) :
    smartDeduplication results = smartDeduplicationSpec results := by
  rw [smartDeduplication, smartDeduplicationSpec]
  split
  · rfl
  · apply dedupGo_eq_spec
    intro ws
    simp

def c3SnipA : KnowledgeSnippet :=
  ⟨1, "alpha beta gamma ab cd", MemoryCategory.fact, 0, MemorySource.explicit, [], none, 0, 0, 0⟩

def c3SnipC : KnowledgeSnippet :=
  ⟨2, "alpha beta gamma", MemoryCategory.fact, 0, MemorySource.explicit, [], none, 0, 0, 0⟩

def c3SnipD : KnowledgeSnippet :=
  ⟨3, "dddd eeee", MemoryCategory.fact, 0, MemorySource.explicit, [], none, 0, 0, 0⟩

def c3SnipE : KnowledgeSnippet :=
  ⟨4, "ffff gggg", MemoryCategory.fact, 0, MemorySource.explicit, [], none, 0, 0, 0⟩

def c3ResA : KnowledgeSearchResult := ⟨c3SnipA, 10, MatchType.keyword⟩
def c3ResC : KnowledgeSearchResult := ⟨c3SnipC, 9, MatchType.keyword⟩
def c3ResD : KnowledgeSearchResult := ⟨c3SnipD, 5, MatchType.keyword⟩
def c3ResE : KnowledgeSearchResult := ⟨c3SnipE, 4, MatchType.keyword⟩

-- accept-step helper
theorem dedupGo_accept (r : KnowledgeSearchResult) (rest unique : List KnowledgeSearchResult)
    (seen : List String)
    (h : (seen.any fun s => decide (7/10 <
      calculateWordOverlap
        (jsSetOfList ((jsSplitWS (jsToLower r.snippet.content)).filter fun w => 3 < w.length))
        (jsSetOfList (jsSplitWS s)))) = false) :
    dedupGo (r :: rest) unique seen =
      dedupGo rest (unique ++ [r]) (jsSetAdd seen (jsToLower r.snippet.content)) := by
  rw [dedupGo]
  simp [h]

theorem dedupClaimGo_accept (r : KnowledgeSearchResult)
    (rest unique : List KnowledgeSearchResult) (seenSets : List (List String))
    (h : (seenSets.any fun ws => decide (7/10 <
      calculateWordOverlap (longWordSet r.snippet.content) ws)) = false) :
    dedupClaimGo (r :: rest) unique seenSets =
      dedupClaimGo rest (unique ++ [r]) (seenSets ++ [longWordSet r.snippet.content]) := by
  rw [dedupClaimGo]
  simp [h]

theorem dedupClaimGo_reject (r : KnowledgeSearchResult)
    (rest unique : List KnowledgeSearchResult) (seenSets : List (List String))
    (h : (seenSets.any fun ws => decide (7/10 <
      calculateWordOverlap (longWordSet r.snippet.content) ws)) = true) :
    dedupClaimGo (r :: rest) unique seenSets = dedupClaimGo rest unique seenSets := by
  rw [dedupClaimGo]
  simp [h]

theorem c3_sort_eval :
    stableSort (fun a b => decide (b.score ≤ a.score)) [c3ResA, c3ResC, c3ResD, c3ResE] =
      [c3ResA, c3ResC, c3ResD, c3ResE] := by
  apply stableSort_eq_self
  norm_num [List.pairwise_cons, c3ResA, c3ResC, c3ResD, c3ResE, c3SnipA, c3SnipC, c3SnipD, c3SnipE]

theorem c3_overlap_CA :
    calculateWordOverlap (jsSetOfList ((jsSplitWS (jsToLower "alpha beta gamma")).filter
      fun w => 3 < w.length)) (jsSetOfList (jsSplitWS "alpha beta gamma ab cd")) = 3/5 := by
  rw [calculateWordOverlap, if_neg (by decide)]
  rw [show ((jsSetOfList ((jsSplitWS (jsToLower "alpha beta gamma")).filter
      fun w => 3 < w.length)).filter fun w =>
        (jsSetOfList (jsSplitWS "alpha beta gamma ab cd")).contains w).length = 3 from by decide]
  rw [show (jsSetOfList ((jsSetOfList ((jsSplitWS (jsToLower "alpha beta gamma")).filter
      fun w => 3 < w.length)) ++ jsSetOfList (jsSplitWS "alpha beta gamma ab cd"))).length = 5
      from by decide]
  norm_num

theorem c3_code_eval :
    smartDeduplication [c3ResA, c3ResC, c3ResD, c3ResE] = [c3ResA, c3ResC, c3ResD, c3ResE] := by
  rw [smartDeduplication, if_neg (by norm_num), c3_sort_eval]
  rw [dedupGo_accept _ _ _ _ (by rfl)]
  rw [show jsSetAdd [] (jsToLower c3ResA.snippet.content) = ["alpha beta gamma ab cd"]
    from by decide]
  rw [dedupGo_accept _ _ _ _ ?hc]
  case hc =>
    show (List.any ["alpha beta gamma ab cd"] _) = false
    rw [List.any_cons, List.any_nil]
    rw [show c3ResC.snippet.content = "alpha beta gamma" from rfl]
    rw [c3_overlap_CA]
    norm_num
  rw [show jsSetAdd ["alpha beta gamma ab cd"] (jsToLower c3ResC.snippet.content) =
    ["alpha beta gamma ab cd", "alpha beta gamma"] from by decide]
  rw [dedupGo_accept _ _ _ _ ?hd]
  case hd =>
    rw [List.any_cons, List.any_cons, List.any_nil]
    rw [show c3ResD.snippet.content = "dddd eeee" from rfl]
    rw [show calculateWordOverlap (jsSetOfList ((jsSplitWS (jsToLower "dddd eeee")).filter
        fun w => 3 < w.length)) (jsSetOfList (jsSplitWS "alpha beta gamma ab cd")) = 0 from by
      rw [calculateWordOverlap, if_neg (by decide)]
      rw [show ((jsSetOfList ((jsSplitWS (jsToLower "dddd eeee")).filter
          fun w => 3 < w.length)).filter fun w =>
            (jsSetOfList (jsSplitWS "alpha beta gamma ab cd")).contains w).length = 0 from by decide]
      norm_num]
    rw [show calculateWordOverlap (jsSetOfList ((jsSplitWS (jsToLower "dddd eeee")).filter
        fun w => 3 < w.length)) (jsSetOfList (jsSplitWS "alpha beta gamma")) = 0 from by
      rw [calculateWordOverlap, if_neg (by decide)]
      rw [show ((jsSetOfList ((jsSplitWS (jsToLower "dddd eeee")).filter
          fun w => 3 < w.length)).filter fun w =>
            (jsSetOfList (jsSplitWS "alpha beta gamma")).contains w).length = 0 from by decide]
      norm_num]
    norm_num
  rw [show jsSetAdd ["alpha beta gamma ab cd", "alpha beta gamma"]
      (jsToLower c3ResD.snippet.content) =
    ["alpha beta gamma ab cd", "alpha beta gamma", "dddd eeee"] from by decide]
  rw [dedupGo_accept _ _ _ _ ?he]
  case he =>
    rw [List.any_cons, List.any_cons, List.any_cons, List.any_nil]
    rw [show c3ResE.snippet.content = "ffff gggg" from rfl]
    rw [show calculateWordOverlap (jsSetOfList ((jsSplitWS (jsToLower "ffff gggg")).filter
        fun w => 3 < w.length)) (jsSetOfList (jsSplitWS "alpha beta gamma ab cd")) = 0 from by
      rw [calculateWordOverlap, if_neg (by decide)]
      rw [show ((jsSetOfList ((jsSplitWS (jsToLower "ffff gggg")).filter
          fun w => 3 < w.length)).filter fun w =>
            (jsSetOfList (jsSplitWS "alpha beta gamma ab cd")).contains w).length = 0 from by decide]
      norm_num]
    rw [show calculateWordOverlap (jsSetOfList ((jsSplitWS (jsToLower "ffff gggg")).filter
        fun w => 3 < w.length)) (jsSetOfList (jsSplitWS "alpha beta gamma")) = 0 from by
      rw [calculateWordOverlap, if_neg (by decide)]
      rw [show ((jsSetOfList ((jsSplitWS (jsToLower "ffff gggg")).filter
          fun w => 3 < w.length)).filter fun w =>
            (jsSetOfList (jsSplitWS "alpha beta gamma")).contains w).length = 0 from by decide]
      norm_num]
    rw [show calculateWordOverlap (jsSetOfList ((jsSplitWS (jsToLower "ffff gggg")).filter
        fun w => 3 < w.length)) (jsSetOfList (jsSplitWS "dddd eeee")) = 0 from by
      rw [calculateWordOverlap, if_neg (by decide)]
      rw [show ((jsSetOfList ((jsSplitWS (jsToLower "ffff gggg")).filter
          fun w => 3 < w.length)).filter fun w =>
            (jsSetOfList (jsSplitWS "dddd eeee")).contains w).length = 0 from by decide]
      norm_num]
    norm_num
  rfl

theorem c3_overlap_claim :
    calculateWordOverlap (longWordSet "alpha beta gamma") (longWordSet "alpha beta gamma ab cd") = 1 := by
  rw [show longWordSet "alpha beta gamma ab cd" = ["alpha", "beta", "gamma"] from by decide]
  rw [calculateWordOverlap, if_neg (by decide)]
  rw [show ((longWordSet "alpha beta gamma").filter fun w =>
      (["alpha", "beta", "gamma"] : List String).contains w).length = 3 from by decide]
  rw [show (jsSetOfList (longWordSet "alpha beta gamma" ++ ["alpha", "beta", "gamma"])).length = 3
    from by decide]
  norm_num

theorem c3_claim_eval :
    smartDeduplicationClaimC3 [c3ResA, c3ResC, c3ResD, c3ResE] = [c3ResA, c3ResD, c3ResE] := by
  rw [smartDeduplicationClaimC3, if_neg (by norm_num), c3_sort_eval]
  rw [dedupClaimGo_accept _ _ _ _ (by rfl)]
  rw [show ([] : List (List String)) ++ [longWordSet c3ResA.snippet.content] =
    [["alpha", "beta", "gamma"]] from by decide]
  rw [dedupClaimGo_reject _ _ _ _ ?hc]
  case hc =>
    rw [List.any_cons, List.any_nil]
    rw [show c3ResC.snippet.content = "alpha beta gamma" from rfl]
    rw [show calculateWordOverlap (longWordSet "alpha beta gamma")
        (["alpha", "beta", "gamma"] : List String) = 1 from by
      rw [calculateWordOverlap, if_neg (by decide)]
      rw [show ((longWordSet "alpha beta gamma").filter fun w =>
          (["alpha", "beta", "gamma"] : List String).contains w).length = 3 from by decide]
      rw [show (jsSetOfList (longWordSet "alpha beta gamma" ++ ["alpha", "beta", "gamma"])).length = 3
        from by decide]
      norm_num]
    norm_num
  rw [dedupClaimGo_accept _ _ _ _ ?hd]
  case hd =>
    rw [List.any_cons, List.any_nil]
    rw [show c3ResD.snippet.content = "dddd eeee" from rfl]
    rw [show calculateWordOverlap (longWordSet "dddd eeee")
        (["alpha", "beta", "gamma"] : List String) = 0 from by
      rw [calculateWordOverlap, if_neg (by decide)]
      rw [show ((longWordSet "dddd eeee").filter fun w =>
          (["alpha", "beta", "gamma"] : List String).contains w).length = 0 from by decide]
      norm_num]
    norm_num
  rw [show [["alpha", "beta", "gamma"]] ++ [longWordSet c3ResD.snippet.content] =
    [["alpha", "beta", "gamma"], ["dddd", "eeee"]] from by decide]
  rw [dedupClaimGo_accept _ _ _ _ ?he]
  case he =>
    rw [List.any_cons, List.any_cons, List.any_nil]
    rw [show c3ResE.snippet.content = "ffff gggg" from rfl]
    rw [show calculateWordOverlap (longWordSet "ffff gggg")
        (["alpha", "beta", "gamma"] : List String) = 0 from by
      rw [calculateWordOverlap, if_neg (by decide)]
      rw [show ((longWordSet "ffff gggg").filter fun w =>
          (["alpha", "beta", "gamma"] : List String).contains w).length = 0 from by decide]
      norm_num]
    rw [show calculateWordOverlap (longWordSet "ffff gggg")
        (["dddd", "eeee"] : List String) = 0 from by
      rw [calculateWordOverlap, if_neg (by decide)]
      rw [show ((longWordSet "ffff gggg").filter fun w =>
          (["dddd", "eeee"] : List String).contains w).length = 0 from by decide]
      norm_num]
    norm_num
  rfl

/-- Counterexample to C3 as stated: in a 4-element result set, candidate C
("alpha beta gamma") has filtered-word overlap 1 (> 0.7) with the
higher-scored accepted result A ("alpha beta gamma ab cd"), so by the claim
the pair must collapse to A alone; yet the code keeps both, because it
compares against A's *unfiltered* word set (diluted by the short words
"ab"/"cd" to overlap 0.6). -/
theorem smartDeduplication_counterexample :
    3 < ([c3ResA, c3ResC, c3ResD, c3ResE] : List KnowledgeSearchResult).length ∧
    (7/10 : ℚ) < calculateWordOverlap (longWordSet c3ResC.snippet.content)
      (longWordSet c3ResA.snippet.content) ∧
    c3ResC.score < c3ResA.score ∧
    smartDeduplication [c3ResA, c3ResC, c3ResD, c3ResE] =
      [c3ResA, c3ResC, c3ResD, c3ResE] ∧
    smartDeduplicationClaimC3 [c3ResA, c3ResC, c3ResD, c3ResE] =
      [c3ResA, c3ResD, c3ResE] := by
  refine ⟨by norm_num, ?_, ?_, c3_code_eval, c3_claim_eval⟩
  · rw [show c3ResC.snippet.content = "alpha beta gamma" from rfl,
      show c3ResA.snippet.content = "alpha beta gamma ab cd" from rfl, c3_overlap_claim]
    norm_num
  · norm_num [c3ResA, c3ResC, c3SnipA, c3SnipC]

/-- Snippets of the C1 counterexample: 12 knowledge rows whose content has
no word longer than 3 characters (so deduplication keeps all of them). -/
def c1Snip (i : ℤ) : KnowledgeSnippet :=
  ⟨i, "aa bb", MemoryCategory.fact, 0, MemorySource.explicit, [], none, 0, 0, 0⟩

/-- Row ids of the C1 counterexample. -/
def c1Ids : List ℤ := [1, 2, 3, 4, 5, 6, 7, 8, 9, 10, 11, 12]

/-- The FTS rows of the C1 counterexample, each with bm25 score −2. -/
def c1Rows : List (KnowledgeSnippet × ℚ) := c1Ids.map fun i => (c1Snip i, -2)

/-- The corresponding keyword results (score `|−2| = 2`). -/
def c1Res (i : ℤ) : KnowledgeSearchResult := ⟨c1Snip i, 2, MatchType.keyword⟩

/-- All 12 keyword results. -/
def c1Results : List KnowledgeSearchResult := c1Ids.map c1Res

/-- The C1 counterexample query: no explicit limit (default 10). -/
def c1Input : QueryMemoryInput := ⟨"zq xy kw pq", none, none⟩

/-- Overlap with an empty candidate word set is 0. -/
theorem overlap_nil_left (s : List String) : calculateWordOverlap [] s = 0 := by
  rw [calculateWordOverlap]
  simp

/-- When no pending candidate has a word longer than 3 characters, the
deduplication loop keeps everything. -/
theorem dedupGo_all_short (pending : List KnowledgeSearchResult) :
    ∀ (unique : List KnowledgeSearchResult) (seen : List String),
      (∀ r ∈ pending,
        ((jsSplitWS (jsToLower r.snippet.content)).filter fun w => 3 < w.length) = []) →
      dedupGo pending unique seen = unique ++ pending := by
  induction pending with
  | nil => intro unique seen _; simp [dedupGo]
  | cons r rest ih =>
    intro unique seen h
    rw [dedupGo]
    have hempty := h r (by simp)
    have hno : (seen.any fun s => decide (7/10 <
        calculateWordOverlap
          (jsSetOfList ((jsSplitWS (jsToLower r.snippet.content)).filter fun w => 3 < w.length))
          (jsSetOfList (jsSplitWS s)))) = false := by
      rw [hempty]
      rw [show jsSetOfList ([] : List String) = [] from rfl]
      simp [overlap_nil_left, show ¬((7:ℚ)/10 < 0) from by norm_num]
    simp only [hno]
    rw [if_neg (by simp)]
    rw [ih _ _ fun x hx => h x (by simp [hx])]
    simp

/-- Query analysis of the C1 counterexample query (specific because of the
letter-pair regex alternative under `/i`). -/
theorem c1_analyze : analyzeQuery "zq xy kw pq" = ⟨true, false, false, 2/5, 1/2⟩ := by
  have hlen : (jsSplitWS (jsToLower "zq xy kw pq")).length = 4 := by decide
  have hspecB : (specificPatternsTest "zq xy kw pq" ||
      ((jsSplitWS (jsToLower "zq xy kw pq")).any fun w => decide (8 < w.length))) = true := by decide
  have hprefB : (preferenceKeywords.any fun kw =>
      (jsSplitWS (jsToLower "zq xy kw pq")).contains kw) = false := by decide
  have hfactB : (factualKeywords.any fun kw =>
      (jsSplitWS (jsToLower "zq xy kw pq")).contains kw) = false := by decide
  simp only [analyzeQuery, hspecB, hprefB, hfactB, hlen]
  norm_num

/-- The dynamic limit stays at the default 10 for the C1 query. -/
theorem c1_dyn : qkDynamicLimit c1Input = 10 := by
  show calculateOptimalLimit (analyzeQuery "zq xy kw pq") none = 10
  rw [c1_analyze, calculateOptimalLimit]
  norm_num [qkBaseLimit]

/-- All 12 rows clear the bm25 quality filter. -/
theorem c1_fts : qkQualityFts c1Input c1Rows = c1Results := by
  have hspec : (analyzeQuery "zq xy kw pq").isSpecific = true := by decide
  rw [qkQualityFts, searchFTSModel]
  show (((c1Rows.map fun p => (⟨p.1, |p.2|, MatchType.keyword⟩ : KnowledgeSearchResult))).filter
    fun r => decide ((if (analyzeQuery "zq xy kw pq").isSpecific then (5/10 : ℚ) else 1) ≤ |r.score|)) =
    c1Results
  rw [hspec, if_pos rfl]
  rw [c1Rows, List.map_map, List.filter_map]
  rw [List.filter_eq_self.mpr ?_]
  · rw [c1Results]
    apply List.map_congr_left
    intro i _
    show (⟨c1Snip i, |(-2 : ℚ)|, MatchType.keyword⟩ : KnowledgeSearchResult) = c1Res i
    rw [show |(-2 : ℚ)| = 2 from by norm_num]
    rfl
  · intro i _
    show decide ((5/10 : ℚ) ≤ |((c1Snip i, (-2:ℚ)).2 : ℚ)|) = true
    norm_num

/-- With embeddings disabled the merge stage is the keyword stage. -/
theorem c1_merged : qkMerged false c1Input c1Rows [] = c1Results := by
  rw [qkMerged]
  simp [c1_fts]

/-- Deduplication keeps all 12 results. -/
theorem c1_dedup : smartDeduplication c1Results = c1Results := by
  have hlen : c1Results.length = 12 := rfl
  rw [smartDeduplication, if_neg (by rw [hlen]; norm_num)]
  have hsorted : stableSort (fun a b => decide (b.score ≤ a.score)) c1Results = c1Results := by
    apply stableSort_eq_self
    apply List.pairwise_of_forall_mem_list
    intro a ha b hb
    rcases List.mem_map.mp ha with ⟨i, _, hi⟩
    rcases List.mem_map.mp hb with ⟨j, _, hj⟩
    rw [← hi, ← hj]
    norm_num [c1Res]
  rw [hsorted]
  rw [dedupGo_all_short c1Results [] [] (by decide)]
  rfl

/-- Composite relevance score of every C1 result. -/
theorem c1_rel (i : ℤ) :
    calculateRelevanceScore 0 (c1Res i) (analyzeQuery "zq xy kw pq") = 21/10 := by
  rw [c1_analyze]
  norm_num [calculateRelevanceScore, c1Res, c1Snip]

/-- The relevance sort leaves the equal-scored results in place. -/
theorem c1_sort2 :
    stableSort (fun a b =>
      decide (calculateRelevanceScore 0 b (analyzeQuery c1Input.query) ≤
        calculateRelevanceScore 0 a (analyzeQuery c1Input.query))) c1Results = c1Results := by
  apply stableSort_eq_self
  apply List.pairwise_of_forall_mem_list
  intro a ha b hb
  rcases List.mem_map.mp ha with ⟨i, _, hi⟩
  rcases List.mem_map.mp hb with ⟨j, _, hj⟩
  rw [← hi, ← hj]
  rw [show c1Input.query = "zq xy kw pq" from rfl, c1_rel, c1_rel]
  norm_num

/-- Raw-score distribution of the C1 results. -/
theorem c1_scores : rawScores c1Results = List.replicate 12 2 := by
  rfl

/-- With 12 identically scored results the quality filter keeps all of them
(variance 0), and 12 is within 1.5× the dynamic limit 10, so the adaptive
limiting returns 12 results. -/
theorem c1_adaptive :
    applyAdaptiveLimiting c1Results 10 (analyzeQuery c1Input.query) = c1Results := by
  have havg : avgOf (rawScores c1Results) = 2 := by
    rw [c1_scores, avgOf]
    norm_num [List.replicate, List.sum_cons]
  have hvar : varOf (rawScores c1Results) = 0 := by
    rw [c1_scores, varOf, show avgOf (List.replicate 12 (2:ℚ)) = 2 from by
      rw [← c1_scores, havg]]
    norm_num [List.replicate, List.sum_cons]
  have hq : rawHighQuality c1Results = c1Results := by
    rw [rawHighQuality, havg, hvar]
    apply List.filter_eq_self.mpr
    intro r hr
    rcases List.mem_map.mp hr with ⟨i, _, hi⟩
    rw [← hi]
    rw [show (c1Res i).score = 2 from rfl]
    rw [scoreAtOrAbove]
    norm_num
  rw [applyAdaptiveLimiting, if_neg (by norm_num [show c1Results.length = 12 from rfl])]
  rw [hq, if_pos (by norm_num [show c1Results.length = 12 from rfl])]

/-- Counterexample to C1 as stated: a query with no explicit limit (default
10) over 12 identically relevant rows returns 12 results — the adaptive
limiter keeps every result within one standard deviation band as long as
the count stays under 1.5× the dynamic limit. -/
theorem queryKnowledge_limit_counterexample :
    c1Input.limit = none ∧
    (queryKnowledge 0 false c1Rows [] c1Input).length = 12 ∧
    ¬((queryKnowledge 0 false c1Rows [] c1Input).length ≤ 10) := by
  have hlen : (queryKnowledge 0 false c1Rows [] c1Input).length = 12 := by
    rw [show queryKnowledge 0 false c1Rows [] c1Input =
        applyAdaptiveLimiting
          (stableSort (fun a b =>
            decide (calculateRelevanceScore 0 b (analyzeQuery c1Input.query) ≤
              calculateRelevanceScore 0 a (analyzeQuery c1Input.query)))
            (smartDeduplication (qkMerged false c1Input c1Rows [])))
          (qkDynamicLimit c1Input) (analyzeQuery c1Input.query) from rfl]
    rw [c1_merged, c1_dedup, c1_sort2, c1_dyn, c1_adaptive]
    rfl
  exact ⟨rfl, hlen, by omega⟩

/-- The dynamic limit is positive whenever the base limit is. -/
theorem calculateOptimalLimit_pos (a : QueryAnalysis) (l : Option ℚ)
    (h : 0 < qkBaseLimit l) : 0 < calculateOptimalLimit a l := by
  rw [calculateOptimalLimit]
  split
  · exact lt_of_lt_of_le (by norm_num) (le_max_left 3 _)
  · split
    · exact lt_min (mul_pos h (by norm_num)) (by norm_num)
    · exact h

/-- The final limiting step returns at most 1.5× the (nonnegative) target. -/
theorem applyAdaptiveLimiting_length_le (l : List KnowledgeSearchResult) (t : ℚ)
    (a : QueryAnalysis) (ht : 0 ≤ t) :
    ((applyAdaptiveLimiting l t a).length : ℚ) ≤ t * (3/2) := by
  rw [applyAdaptiveLimiting]
  split
  · next h => nlinarith
  · split
    · next h2 => exact h2
    · refine le_trans (length_jsSlice0_le_bound l t ht) (by nlinarith)

/-- The pipeline laid out as its final limiting call. -/
theorem queryKnowledge_unfold (now : ℤ) (e : Bool)
    (f s : List (KnowledgeSnippet × ℚ)) (input : QueryMemoryInput) :
    queryKnowledge now e f s input =
      applyAdaptiveLimiting
        (stableSort (fun a b =>
          decide (calculateRelevanceScore now b (analyzeQuery input.query) ≤
            calculateRelevanceScore now a (analyzeQuery input.query)))
          (smartDeduplication (qkMerged e input f s)))
        (qkDynamicLimit input) (analyzeQuery input.query) := rfl

/-- C1 (amended): for every call with a positive (or omitted) requested
limit, the number of returned results never exceeds 1.5× the dynamic limit.
It can exceed the requested limit itself: the dynamic limit may be raised
above it (up to 12), and the quality filter may keep up to 1.5× the dynamic
limit. -/
theorem queryKnowledge_length_bound (now : ℤ) (enableEmbeddings : Bool)
    (ftsRows semRows : List (KnowledgeSnippet × ℚ)) (input : QueryMemoryInput)
    (h : 0 < qkBaseLimit input.limit) :
    ((queryKnowledge now enableEmbeddings ftsRows semRows input).length : ℚ) ≤
      qkDynamicLimit input * (3/2) := by
  have hd : 0 < qkDynamicLimit input := calculateOptimalLimit_pos _ _ h
  rw [queryKnowledge_unfold]
  exact applyAdaptiveLimiting_length_le _ _ _ (le_of_lt hd)

/-- Witness for the amended C1 at a concrete call with requested limit 4. -/
theorem queryKnowledge_length_bound_witness :
    (0 < qkBaseLimit (some 4)) ∧
    ((queryKnowledge 0 false [] [] ⟨"hi", none, some 4⟩).length : ℚ) ≤
      qkDynamicLimit ⟨"hi", none, some 4⟩ * (3/2) :=
  ⟨by norm_num [qkBaseLimit],
    queryKnowledge_length_bound 0 false [] [] ⟨"hi", none, some 4⟩
      (by norm_num [qkBaseLimit])⟩
